import Mathlib

/-!
Verification of the ovn-kubernetes network-policy controller
(`go-controller/pkg/ovn`, network policy subsystem).

The development shallowly embeds the state the controller mutates:

* the shared default-deny store `sharedNetpolPortGroups` — per-namespace
  records with two reference maps (port name → set of policy keys) and the
  set of owning policy keys;
* the relevant view of the transactional OVN northbound database — port-group
  membership (port-group name → set of port UUIDs) and port-group existence;
* the per-policy object (`networkPolicy`) fields the handlers read and write.

External collaborators (the libovsdb client, the watch framework, the
logical-port cache, the address-set registry) are embedded as explicit
inputs/oracles: a transaction either commits atomically (applying the batched
operations) or fails (leaving the database untouched), mirroring the
transactional contract the code relies on.
-/

set_option maxHeartbeats 1000000

namespace OvnNetpol

/-- Reference map of a default-deny port group: port name → set of policy keys
referencing that port.  In the Go code this is `map[string]sets.Set[string]`;
`Len` and `Delete` work on the zero-value nil set of an absent entry, entries
are dropped exactly when they become empty, and a stored entry is never empty,
so the map is embedded as a total function with absent ≡ empty set. -/
abbrev RefMap := String → Finset String

/-- The fields of the `networkPolicy` struct read or written by the verified
operations: identity, direction flags, per-policy port-group name, the
`deleted` flag, `localPods` (port name → port UUID, a `sync.Map` embedded as an
association list) and `peerAddressSets`. -/
structure networkPolicy where
  name : String
  namespace_ : String
  isIngress : Bool
  isEgress : Bool
  portGroupName : String
  deleted : Bool
  localPods : List (String × String)
  peerAddressSets : List String

/-- `(np *networkPolicy) getKey()`: the policy key `namespace/name`. -/
def networkPolicy.getKey (np : networkPolicy) : String :=
  np.namespace_ ++ "/" ++ np.name

/-- Suffix used for the ingress default-deny port group of a namespace. -/
def ingressDefaultDenySuffix : String := "ingressDefaultDeny"

/-- Suffix used for the egress default-deny port group of a namespace. -/
def egressDefaultDenySuffix : String := "egressDefaultDeny"

/-- Modelled from the spec: `hashedPortGroup` (the external `util.HashForOVN`)
maps a name to a stable hashed port-group name; the spec's naming formats treat
distinct inputs as yielding distinct names, so the digest is embedded as the
identity. -/
def hashedPortGroup (s : String) : String := s

/-- `defaultDenyPortGroupName`: `hash(namespace) + "_" + gressSuffix`. -/
def defaultDenyPortGroupName (namespace_ gressSuffix : String) : String :=
  hashedPortGroup namespace_ ++ "_" ++ gressSuffix

/-- `getNetworkPolicyPGName`: hashed per-policy port-group name together with
the readable secondary name `namespace_name`. -/
def getNetworkPolicyPGName (namespace_ name : String) : String × String :=
  (hashedPortGroup (namespace_ ++ "_" ++ name), namespace_ ++ "_" ++ name)

/-- One direction loop of `defaultDenyPortGroups.addPortsForPolicy`: for each
(portName, portUUID) pair, if the port's reference set is empty the UUID is
emitted into the new-ports list and a fresh set is stored for the port, and in
either case the policy key is inserted (reference count bump). -/
def addPortsDir (key : String) : List (String × String) → RefMap → List String × RefMap
  | [], refs => ([], refs)
  | p :: rest, refs =>
    if refs p.1 = ∅ then
      let r := addPortsDir key rest (Function.update refs p.1 (insert key (∅ : Finset String)))
      (p.2 :: r.1, r.2)
    else
      let r := addPortsDir key rest (Function.update refs p.1 (insert key (refs p.1)))
      r

/-- One direction loop of `defaultDenyPortGroups.deletePortsForPolicy`: the
policy key is removed from the port's reference set; if the set becomes empty
the UUID is emitted into the freed-ports list and the entry is dropped. -/
def deletePortsDir (key : String) : List (String × String) → RefMap → List String × RefMap
  | [], refs => ([], refs)
  | p :: rest, refs =>
    if (refs p.1).erase key = ∅ then
      let r := deletePortsDir key rest (Function.update refs p.1 ∅)
      (p.2 :: r.1, r.2)
    else
      let r := deletePortsDir key rest (Function.update refs p.1 ((refs p.1).erase key))
      r

/-- The shared per-namespace `defaultDenyPortGroups` record: the two port
reference maps and the set of policy keys using the port groups. -/
structure defaultDenyPortGroups where
  ingressPortToPolicies : RefMap
  egressPortToPolicies : RefMap
  policies : Finset String

/-- `addPortsForPolicy`: adds port-policy associations for the directions the
policy has, returning (ingressDenyPorts, egressDenyPorts) — the UUIDs that are
new to each default-deny port group — and the updated record. -/
def defaultDenyPortGroups.addPortsForPolicy (sharedPGs : defaultDenyPortGroups)
    (np : networkPolicy) (portNamesToUUIDs : List (String × String)) :
    List String × List String × defaultDenyPortGroups :=
  let ing := if np.isIngress then addPortsDir np.getKey portNamesToUUIDs sharedPGs.ingressPortToPolicies
             else ([], sharedPGs.ingressPortToPolicies)
  let eg := if np.isEgress then addPortsDir np.getKey portNamesToUUIDs sharedPGs.egressPortToPolicies
            else ([], sharedPGs.egressPortToPolicies)
  (ing.1, eg.1,
    { sharedPGs with ingressPortToPolicies := ing.2, egressPortToPolicies := eg.2 })

/-- `deletePortsForPolicy`: removes port-policy associations for the directions
the policy has, returning the UUIDs freed from each default-deny port group and
the updated record. -/
def defaultDenyPortGroups.deletePortsForPolicy (sharedPGs : defaultDenyPortGroups)
    (np : networkPolicy) (portNamesToUUIDs : List (String × String)) :
    List String × List String × defaultDenyPortGroups :=
  let ing := if np.isIngress then deletePortsDir np.getKey portNamesToUUIDs sharedPGs.ingressPortToPolicies
             else ([], sharedPGs.ingressPortToPolicies)
  let eg := if np.isEgress then deletePortsDir np.getKey portNamesToUUIDs sharedPGs.egressPortToPolicies
            else ([], sharedPGs.egressPortToPolicies)
  (ing.1, eg.1,
    { sharedPGs with ingressPortToPolicies := ing.2, egressPortToPolicies := eg.2 })

/-- Membership view of the northbound database: port-group name → set of member
port UUIDs (a port group that does not exist has no members). -/
abbrev DenyDB := String → Finset String

/-- Batched northbound operations relevant to port-group membership.  `other`
stands for caller-supplied operations that do not touch port-group membership
of the default-deny port groups (e.g. ACL updates, config-duration records). -/
inductive Op where
  | addPorts (pg : String) (ports : List String)
  | delPorts (pg : String) (ports : List String)
  | other (tag : String)

/-- The port group a membership operation targets, if any. -/
def Op.targetPG : Op → Option String
  | .addPorts pg _ => some pg
  | .delPorts pg _ => some pg
  | .other _ => none

/-- Effect of one committed operation on the database membership view. -/
def applyOp (db : DenyDB) : Op → DenyDB
  | .addPorts pg ports => Function.update db pg (db pg ∪ ports.toFinset)
  | .delPorts pg ports => Function.update db pg (db pg \ ports.toFinset)
  | .other _ => db

/-- Effect of a committed transaction (ops applied in order). -/
def applyOps (db : DenyDB) (ops : List Op) : DenyDB := ops.foldl applyOp db

/-- The controller state the default-deny port synchronization functions touch:
the shared store keyed by namespace, and the database membership view. -/
structure OvnState where
  sharedNetpolPortGroups : String → Option defaultDenyPortGroups
  db : DenyDB

/-- Result of `denyPGAddPorts`/`denyPGDeletePorts`: final state, returned error,
and the operation list submitted to `TransactAndCheck` (none if the function
returned before submitting a transaction). -/
structure DenyPGResult where
  state : OvnState
  err : Option String
  submitted : Option (List Op)

/-- `denyPGAddPorts`: under the namespace key of the shared store, fails if the
record is absent; otherwise bumps the reference counters, appends
add-ports-to-port-group operations when some port is new to a deny port group,
and submits the transaction (`txnOk` is the commit oracle; operation-building
errors are folded into it since they leave the same state).  On submission
failure the deferred `deletePortsForPolicy` reverts the counters. -/
def denyPGAddPorts (np : networkPolicy) (portNamesToUUIDs : List (String × String))
    (ops : List Op) (txnOk : Bool) (s : OvnState) : DenyPGResult :=
  let ingressDenyPGName := defaultDenyPortGroupName np.namespace_ ingressDefaultDenySuffix
  let egressDenyPGName := defaultDenyPortGroupName np.namespace_ egressDefaultDenySuffix
  match s.sharedNetpolPortGroups np.namespace_ with
  | none =>
    { state := s
      err := some ("port groups for ns " ++ np.namespace_ ++ " don't exist")
      submitted := none }
  | some sharedPGs =>
    let r := sharedPGs.addPortsForPolicy np portNamesToUUIDs
    let ingressDenyPorts := r.1
    let egressDenyPorts := r.2.1
    let bumped := r.2.2
    let ops1 :=
      if ingressDenyPorts ≠ [] ∨ egressDenyPorts ≠ [] then
        ops ++ [Op.addPorts ingressDenyPGName ingressDenyPorts,
                Op.addPorts egressDenyPGName egressDenyPorts]
      else ops
    if txnOk then
      { state :=
          { sharedNetpolPortGroups :=
              Function.update s.sharedNetpolPortGroups np.namespace_ (some bumped)
            db := applyOps s.db ops1 }
        err := none
        submitted := some ops1 }
    else
      let reverted := (bumped.deletePortsForPolicy np portNamesToUUIDs).2.2
      { state :=
          { sharedNetpolPortGroups :=
              Function.update s.sharedNetpolPortGroups np.namespace_ (some reverted)
            db := s.db }
        err := some "unable to transact add ports to default deny port groups"
        submitted := some ops1 }

/-- `denyPGDeletePorts`: with `useLocalPods` the port map is drained from the
policy's `localPods`.  If the resulting map is non-empty and the shared record
exists, the reference counters are decremented and delete-ports operations are
appended for ports whose count dropped to zero; a missing record is only
logged.  The pending operations are submitted in all paths; on submission
failure the deferred `addPortsForPolicy` reinserts the counters. -/
def denyPGDeletePorts (np : networkPolicy) (portNamesToUUIDs : List (String × String))
    (useLocalPods : Bool) (ops : List Op) (txnOk : Bool) (s : OvnState) : DenyPGResult :=
  let pm := if useLocalPods then np.localPods else portNamesToUUIDs
  let ingressDenyPGName := defaultDenyPortGroupName np.namespace_ ingressDefaultDenySuffix
  let egressDenyPGName := defaultDenyPortGroupName np.namespace_ egressDefaultDenySuffix
  if pm ≠ [] then
    match s.sharedNetpolPortGroups np.namespace_ with
    | none =>
      if txnOk then
        { state := { s with db := applyOps s.db ops }, err := none, submitted := some ops }
      else
        { state := s
          err := some "unable to transact del ports from default deny port groups"
          submitted := some ops }
    | some sharedPGs =>
      let r := sharedPGs.deletePortsForPolicy np pm
      let ingressDenyPorts := r.1
      let egressDenyPorts := r.2.1
      let decremented := r.2.2
      let ops1 :=
        if ingressDenyPorts ≠ [] ∨ egressDenyPorts ≠ [] then
          ops ++ [Op.delPorts ingressDenyPGName ingressDenyPorts,
                  Op.delPorts egressDenyPGName egressDenyPorts]
        else ops
      if txnOk then
        { state :=
            { sharedNetpolPortGroups :=
                Function.update s.sharedNetpolPortGroups np.namespace_ (some decremented)
              db := applyOps s.db ops1 }
          err := none
          submitted := some ops1 }
      else
        let reinserted := (decremented.addPortsForPolicy np pm).2.2
        { state :=
            { sharedNetpolPortGroups :=
                Function.update s.sharedNetpolPortGroups np.namespace_ (some reinserted)
              db := s.db }
          err := some "unable to transact del ports from default deny port groups"
          submitted := some ops1 }
  else
    if txnOk then
      { state := { s with db := applyOps s.db ops }, err := none, submitted := some ops }
    else
      { state := s
        err := some "unable to transact del ports from default deny port groups"
        submitted := some ops }

/-! Lifecycle of the shared default-deny record and its two database port
groups (`addPolicyToDefaultPortGroups` / `delPolicyFromDefaultPortGroups`,
with `createDefaultDenyPGAndACLs` / `deleteDefaultDenyPGAndACLs` as the
database transactions, committed or failed atomically by their oracle). -/

/-- State for the default-deny lifecycle: the shared store and port-group
existence in the database (port-group name → exists). -/
structure LifecycleState where
  sharedNetpolPortGroups : String → Option defaultDenyPortGroups
  pgExists : String → Bool

/-- The fresh record stored by `LoadOrStore`. -/
def emptyDenyPG : defaultDenyPortGroups :=
  { ingressPortToPolicies := fun _ => ∅
    egressPortToPolicies := fun _ => ∅
    policies := ∅ }

/-- `addPolicyToDefaultPortGroups`: under the namespace key, `LoadOrStore` the
record; if stored fresh, create the two port groups (with their four ACLs) in
one transaction (`createOk` oracle), deleting the freshly stored record and
returning an error on failure; finally register the policy key. -/
def addPolicyToDefaultPortGroups (np : networkPolicy) (createOk : Bool)
    (s : LifecycleState) : LifecycleState × Option String :=
  match s.sharedNetpolPortGroups np.namespace_ with
  | some sharedPGs =>
    ({ s with
        sharedNetpolPortGroups :=
          Function.update s.sharedNetpolPortGroups np.namespace_
            (some { sharedPGs with policies := insert np.getKey sharedPGs.policies }) },
      none)
  | none =>
    if createOk then
      ({ sharedNetpolPortGroups :=
           Function.update s.sharedNetpolPortGroups np.namespace_
             (some { emptyDenyPG with policies := insert np.getKey emptyDenyPG.policies })
         pgExists :=
           Function.update
             (Function.update s.pgExists
               (defaultDenyPortGroupName np.namespace_ ingressDefaultDenySuffix) true)
             (defaultDenyPortGroupName np.namespace_ egressDefaultDenySuffix) true },
        none)
    else (s, some "failed to create default deny port groups")

/-- `delPolicyFromDefaultPortGroups`: under the namespace key, a missing record
is a no-op; otherwise the policy key is removed, and if the record's `policies`
set emptied, both port groups are deleted from the database (`deleteOk` oracle)
and on success the record is dropped from the store. -/
def delPolicyFromDefaultPortGroups (np : networkPolicy) (deleteOk : Bool)
    (s : LifecycleState) : LifecycleState × Option String :=
  match s.sharedNetpolPortGroups np.namespace_ with
  | none => (s, none)
  | some sharedPGs =>
    let remaining := sharedPGs.policies.erase np.getKey
    if remaining = ∅ then
      if deleteOk then
        ({ sharedNetpolPortGroups :=
             Function.update s.sharedNetpolPortGroups np.namespace_ none
           pgExists :=
             Function.update
               (Function.update s.pgExists
                 (defaultDenyPortGroupName np.namespace_ ingressDefaultDenySuffix) false)
               (defaultDenyPortGroupName np.namespace_ egressDefaultDenySuffix) false },
          none)
      else
        ({ s with
            sharedNetpolPortGroups :=
              Function.update s.sharedNetpolPortGroups np.namespace_
                (some { sharedPGs with policies := remaining }) },
          some "failed to delete default deny port group")
    else
      ({ s with
          sharedNetpolPortGroups :=
            Function.update s.sharedNetpolPortGroups np.namespace_
              (some { sharedPGs with policies := remaining }) },
        none)

/-- One lifecycle event: a policy joining or leaving its namespace's shared
default-deny record, with the outcome of the associated database transaction. -/
inductive DDEvent where
  | join (np : networkPolicy) (createOk : Bool)
  | leave (np : networkPolicy) (deleteOk : Bool)

/-- State transition of one lifecycle event. -/
def ddStep (s : LifecycleState) : DDEvent → LifecycleState
  | .join np createOk => (addPolicyToDefaultPortGroups np createOk s).1
  | .leave np deleteOk => (delPolicyFromDefaultPortGroups np deleteOk s).1

/-- Run of a sequence of lifecycle events. -/
def runDD (s : LifecycleState) : List DDEvent → LifecycleState
  | [] => s
  | e :: rest => runDD (ddStep s e) rest

/-- Ghost bookkeeping of which policy keys have joined a namespace's record and
not yet left it: a join that succeeds (record already present, or created
fresh) registers the key; a leave on a present record removes it. -/
def joinedStep (s : LifecycleState) (joined : String → Finset String) :
    DDEvent → (String → Finset String)
  | .join np createOk =>
    if (s.sharedNetpolPortGroups np.namespace_).isSome ∨ createOk then
      Function.update joined np.namespace_ (insert np.getKey (joined np.namespace_))
    else joined
  | .leave np _ =>
    if (s.sharedNetpolPortGroups np.namespace_).isSome then
      Function.update joined np.namespace_ ((joined np.namespace_).erase np.getKey)
    else joined

/-! Local-pod event handlers and the logical-port cache view. -/

/-- The logical-port cache entry for a pod: port name, port UUID, and whether
the expiry timestamp is zero (non-zero means the port is pending deletion). -/
structure PortInfo where
  name : String
  uuid : String
  expiresIsZero : Bool
deriving DecidableEq

/-- A pod as seen by `getNewLocalPolicyPorts`: identity, scheduling state, the
externally computed `podExpectedInLogicalCache` verdict, and the logical-port
cache lookup outcome (`none` = the cache `get` returned an error). -/
structure Pod where
  namespace_ : String
  name : String
  nodeName : String
  expectedInLogicalCache : Bool
  cacheEntry : Option PortInfo
deriving DecidableEq

/-- Modelled from the spec: `util.GetLogicalPortName` composes the logical port
name of a pod from its namespace and name. -/
def getLogicalPortName (podNamespace podName : String) : String :=
  podNamespace ++ "_" ++ podName

/-- `getNewLocalPolicyPorts`: for each pod not already in `localPods`, skip it
if unscheduled or not expected in the logical-port cache; surface it as a
retryable error object if the cache lookup fails or the cached port is pending
deletion; otherwise emit its (port name, port UUID).  Returns
(policyPortsToUUIDs, policyPortUUIDs, errObjs). -/
def getNewLocalPolicyPorts (np : networkPolicy) :
    List Pod → List (String × String) × List String × List Pod
  | [] => ([], [], [])
  | pod :: objs =>
    let r := getNewLocalPolicyPorts np objs
    if (np.localPods.lookup (getLogicalPortName pod.namespace_ pod.name)).isSome then r
    else if pod.nodeName = "" then r
    else if ¬ pod.expectedInLogicalCache then r
    else
      match pod.cacheEntry with
      | none => (r.1, r.2.1, pod :: r.2.2)
      | some portInfo =>
        if ¬ portInfo.expiresIsZero then (r.1, r.2.1, pod :: r.2.2)
        else ((portInfo.name, portInfo.uuid) :: r.1, portInfo.uuid :: r.2.1, r.2.2)

/-- `getExistingLocalPolicyPorts`: port info for every given pod that is
present in `np.localPods`. -/
def getExistingLocalPolicyPorts (np : networkPolicy) :
    List Pod → List (String × String) × List String × List Pod
  | [] => ([], [], [])
  | pod :: objs =>
    let r := getExistingLocalPolicyPorts np objs
    match np.localPods.lookup (getLogicalPortName pod.namespace_ pod.name) with
    | none => r
    | some portUUID =>
      ((getLogicalPortName pod.namespace_ pod.name, portUUID) :: r.1, portUUID :: r.2.1, r.2.2)

/-- Result of a local-pod event handler: the policy object, the shared/database
state, the returned error, and the submitted transaction (none = no database
transaction was submitted). -/
structure HandlerResult where
  np : networkPolicy
  state : OvnState
  err : Option String
  submitted : Option (List Op)

/-- `handleLocalPodSelectorAddFunc`: under the policy read-lock, a deleted
policy is a no-op; otherwise the new local ports are computed, added to the
per-policy port group (unless `PortGroupHasPorts` already reports them) and to
the default-deny port groups via `denyPGAddPorts`, `localPods` is updated on
success, and pods that failed port lookup are aggregated into the returned
error. -/
def handleLocalPodSelectorAddFunc (np : networkPolicy) (pods : List Pod)
    (portGroupHasPorts : Bool) (txnOk : Bool) (s : OvnState) : HandlerResult :=
  if np.deleted then { np := np, state := s, err := none, submitted := none }
  else
    let r := getNewLocalPolicyPorts np pods
    let portNamesToUUIDs := r.1
    let policyPortUUIDs := r.2.1
    let errPods := r.2.2
    if portNamesToUUIDs ≠ [] then
      let ops := if ¬ portGroupHasPorts then [Op.addPorts np.portGroupName policyPortUUIDs] else []
      let dr := denyPGAddPorts np portNamesToUUIDs ops txnOk s
      match dr.err with
      | some e => { np := np, state := dr.state, err := some e, submitted := dr.submitted }
      | none =>
        let np1 := { np with localPods := np.localPods ++ portNamesToUUIDs }
        if errPods ≠ [] then
          { np := np1, state := dr.state
            err := some "unable to get port info for pods", submitted := dr.submitted }
        else { np := np1, state := dr.state, err := none, submitted := dr.submitted }
    else
      if errPods ≠ [] then
        { np := np, state := s, err := some "unable to get port info for pods", submitted := none }
      else { np := np, state := s, err := none, submitted := none }

/-- `handleLocalPodSelectorDelFunc`: under the policy read-lock, a deleted
policy is a no-op; otherwise the existing local ports are removed from the
per-policy port group and the default-deny port groups via
`denyPGDeletePorts`, and `localPods` entries are dropped on success. -/
def handleLocalPodSelectorDelFunc (np : networkPolicy) (pods : List Pod)
    (txnOk : Bool) (s : OvnState) : HandlerResult :=
  if np.deleted then { np := np, state := s, err := none, submitted := none }
  else
    let r := getExistingLocalPolicyPorts np pods
    let portNamesToUUIDs := r.1
    let policyPortUUIDs := r.2.1
    let errPods := r.2.2
    if portNamesToUUIDs ≠ [] then
      let ops := [Op.delPorts np.portGroupName policyPortUUIDs]
      let dr := denyPGDeletePorts np portNamesToUUIDs false ops txnOk s
      match dr.err with
      | some e => { np := np, state := dr.state, err := some e, submitted := dr.submitted }
      | none =>
        let np1 :=
          { np with
              localPods :=
                np.localPods.filter
                  (fun q => decide (q.1 ∉ portNamesToUUIDs.map Prod.fst)) }
        if errPods ≠ [] then
          { np := np1, state := dr.state
            err := some "unable to get port info for pods", submitted := dr.submitted }
        else { np := np1, state := dr.state, err := none, submitted := dr.submitted }
    else
      if errPods ≠ [] then
        { np := np, state := s, err := some "unable to get port info for pods", submitted := none }
      else { np := np, state := s, err := none, submitted := none }

/-- Modelled from the spec: the peer-namespace-relevant state of a
`gressPolicy` is the set of namespace names whose address sets the rule
currently references; `addNamespaceAddressSet`/`delNamespaceAddressSet` mutate
it and report whether it changed. -/
structure gressPolicy where
  namespaceAddressSets : Finset String

/-- Modelled from the spec: add a namespace's address set; returns whether the
gress policy changed. -/
def gressPolicy.addNamespaceAddressSet (gp : gressPolicy) (ns : String) :
    Bool × gressPolicy :=
  if ns ∈ gp.namespaceAddressSets then (false, gp)
  else (true, { namespaceAddressSets := insert ns gp.namespaceAddressSets })

/-- Modelled from the spec: remove a namespace's address set; returns whether
the gress policy changed. -/
def gressPolicy.delNamespaceAddressSet (gp : gressPolicy) (ns : String) :
    Bool × gressPolicy :=
  if ns ∈ gp.namespaceAddressSets then
    (true, { namespaceAddressSets := gp.namespaceAddressSets.erase ns })
  else (false, gp)

/-- Result of `peerNamespaceUpdate` and of the peer-namespace handlers. -/
structure PeerHandlerResult where
  np : networkPolicy
  gp : gressPolicy
  err : Option String
  submitted : Option (List Op)

/-- `peerNamespaceUpdate`: locks namespace then policy; a deleted policy is a
no-op; otherwise the rule's ACLs are rebuilt (`buildLocalPodACLs` and the ACL
operations are external and folded into a tag plus the transaction oracle). -/
def peerNamespaceUpdate (np : networkPolicy) (gp : gressPolicy) (txnOk : Bool) :
    PeerHandlerResult :=
  if np.deleted then { np := np, gp := gp, err := none, submitted := none }
  else
    let ops := [Op.other ("rebuild gress acls in " ++ np.portGroupName)]
    if txnOk then { np := np, gp := gp, err := none, submitted := some ops }
    else { np := np, gp := gp, err := some "peer namespace update transact failed", submitted := some ops }

/-- `handlePeerNamespaceSelectorAdd`: under the policy read-lock, a deleted
policy is a no-op; otherwise each namespace's address set is added to the gress
policy and `peerNamespaceUpdate` runs (after unlocking) if anything changed. -/
def handlePeerNamespaceSelectorAdd (np : networkPolicy) (gp : gressPolicy)
    (objs : List String) (txnOk : Bool) : PeerHandlerResult :=
  if np.deleted then { np := np, gp := gp, err := none, submitted := none }
  else
    let upd := objs.foldl
      (fun acc ns =>
        let r := acc.2.addNamespaceAddressSet ns
        (acc.1 || r.1, r.2))
      (false, gp)
    if upd.1 then
      let pu := peerNamespaceUpdate np upd.2 txnOk
      { np := np, gp := upd.2, err := pu.err, submitted := pu.submitted }
    else { np := np, gp := upd.2, err := none, submitted := none }

/-- `handlePeerNamespaceSelectorDel`: under the policy read-lock, a deleted
policy is a no-op; otherwise each namespace's address set is removed from the
gress policy and `peerNamespaceUpdate` runs if anything changed. -/
def handlePeerNamespaceSelectorDel (np : networkPolicy) (gp : gressPolicy)
    (objs : List String) (txnOk : Bool) : PeerHandlerResult :=
  if np.deleted then { np := np, gp := gp, err := none, submitted := none }
  else
    let upd := objs.foldl
      (fun acc ns =>
        let r := acc.2.delNamespaceAddressSet ns
        (acc.1 || r.1, r.2))
      (false, gp)
    if upd.1 then
      let pu := peerNamespaceUpdate np upd.2 txnOk
      { np := np, gp := upd.2, err := pu.err, submitted := pu.submitted }
    else { np := np, gp := upd.2, err := none, submitted := none }

/-- Modelled from the spec: `getACLPolicyKey` formats the ObjectNameKey of
policy-owned ACLs as `namespace:name`. -/
def getACLPolicyKey (namespace_ name : String) : String :=
  namespace_ ++ ":" ++ name

/-- Result of `updateACLLoggingForPolicy`: the returned error, and the
ObjectNameKey predicate of the database ACL-logging update that was issued
(none = no database operation was performed). -/
structure ACLUpdateResult where
  err : Option String
  updatedPredicateKey : Option String

/-- `updateACLLoggingForPolicy`: under the policy read-lock, a deleted policy
is a no-op; otherwise the log level of all ACLs matching the policy's
ObjectNameKey predicate is rewritten (`UpdateACLLoggingWithPredicate` is
external; `updateOk` is its outcome oracle). -/
def updateACLLoggingForPolicy (np : networkPolicy) (updateOk : Bool) : ACLUpdateResult :=
  if np.deleted then { err := none, updatedPredicateKey := none }
  else if updateOk then
    { err := none, updatedPredicateKey := some (getACLPolicyKey np.namespace_ np.name) }
  else
    { err := some "unable to update ACL logging"
      updatedPredicateKey := some (getACLPolicyKey np.namespace_ np.name) }

/-! Cleanup of a network policy. -/

/-- The peer-address-set release loop of `cleanupNetworkPolicy`: keys are
released in list order; on the first failure the remaining slice (from the
failed index) is returned together with the error. -/
def releasePeerAddressSets (releaseOk : String → Bool) :
    List String → List String × Option String
  | [] => ([], none)
  | asKey :: rest =>
    if releaseOk asKey then releasePeerAddressSets releaseOk rest
    else (asKey :: rest, some ("failed to delete network policy from peer address set " ++ asKey))

/-- Outcomes of the external steps of `cleanupNetworkPolicy`: per-key address
set release, building the port-group delete operations, the
`denyPGDeletePorts` call, and `delPolicyFromDefaultPortGroups`. -/
structure CleanupOracles where
  releaseOk : String → Bool
  portGroupOpsOk : Bool
  denyPGDeleteOk : Bool
  delDefaultPGOk : Bool

/-- `cleanupNetworkPolicy` (policy-object view): sets `deleted` under the write
lock, stops handlers, releases `peerAddressSets` (retaining the remaining slice
on the first failure), deletes the per-policy port group together with the
default-deny membership of the policy's local pods, clears `localPods`, and
leaves the shared default-deny record. -/
def cleanupNetworkPolicy (o : CleanupOracles) (np : networkPolicy) :
    networkPolicy × Option String :=
  let np0 := { np with deleted := true }
  let rel := releasePeerAddressSets o.releaseOk np0.peerAddressSets
  match rel.2 with
  | some e => ({ np0 with peerAddressSets := rel.1 }, some e)
  | none =>
    let np1 := { np0 with peerAddressSets := [] }
    if ¬ o.portGroupOpsOk then
      (np1, some "failed to get delete network policy port group ops")
    else if ¬ o.denyPGDeleteOk then
      (np1, some "unable to delete ports from defaultDeny port group")
    else
      let np2 := { np1 with localPods := [] }
      if ¬ o.delDefaultPGOk then
        (np2, some "unable to delete policy from default deny port groups")
      else (np2, none)

/-! Startup sync / garbage collection. -/

/-- Splitting a character list on the colon separator (the executable core of
key decoding; structural recursion so that concrete keys evaluate). -/
def splitOnColon : List Char → List (List Char)
  | [] => [[]]
  | c :: rest =>
    match splitOnColon rest with
    | [] => [[]]
    | seg :: segs => if c = ':' then [] :: seg :: segs else (c :: seg) :: segs

/-- Modelled from the spec: `parseACLPolicyKey` decodes the policy-owned ACL
ObjectNameKey of format `namespace:name`, failing on any other shape. -/
def parseACLPolicyKey (aclPolicyKey : String) : Except String (String × String) :=
  match splitOnColon aclPolicyKey.data with
  | [policyNamespace, policyName] => .ok (⟨policyNamespace⟩, ⟨policyName⟩)
  | _ => .error ("failed to parse acl policy key " ++ aclPolicyKey)

/-- Membership in the `expectedPolicies` nested map built by
`syncNetworkPolicies`. -/
def expectedPoliciesContain (expectedPolicies : List (String × String))
    (namespace_ name : String) : Bool :=
  expectedPolicies.contains (namespace_, name)

/-- Whether a namespace has any expected policy. -/
def namespaceHasPolicies (expectedPolicies : List (String × String))
    (namespace_ : String) : Bool :=
  (expectedPolicies.map Prod.fst).contains namespace_

/-- First sync loop: over the policy-owned ACLs (given by their ObjectNameKey
external IDs), decode each key — any decode failure aborts the sync — and
collect the per-policy port-group names of policies not in the expected set. -/
def collectStaleNetpolPGs (expectedPolicies : List (String × String)) :
    List String → Except String (Finset String)
  | [] => .ok ∅
  | aclID :: rest =>
    match parseACLPolicyKey aclID with
    | .error e => .error ("failed to sync stale network policies: acl IDs parsing failed: " ++ e)
    | .ok nsName =>
      match collectStaleNetpolPGs expectedPolicies rest with
      | .error e => .error e
      | .ok stale =>
        if ¬ expectedPoliciesContain expectedPolicies nsName.1 nsName.2 then
          .ok (insert (getNetworkPolicyPGName nsName.1 nsName.2).1 stale)
        else .ok stale

/-- Second sync loop: over the namespace-tagged default-deny ACLs (given by
their namespace external IDs), collect both default-deny port-group names of
every namespace with no expected policies. -/
def collectStaleDefaultDenyPGs (expectedPolicies : List (String × String)) :
    List String → Finset String
  | [] => ∅
  | ns :: rest =>
    let stale := collectStaleDefaultDenyPGs expectedPolicies rest
    if ¬ namespaceHasPolicies expectedPolicies ns then
      insert (defaultDenyPortGroupName ns ingressDefaultDenySuffix)
        (insert (defaultDenyPortGroupName ns egressDefaultDenySuffix) stale)
    else stale

/-- Database actions taken by `syncNetworkPolicies`: the single
`DeletePortGroups` call over the accumulated stale set, and the hairpin-allow
ACL installation (`addHairpinAllowACL`: the two allow-related ACLs for the
reserved hairpin source IPs, added to the cluster port group in one
transaction). -/
inductive SyncAction where
  | deletePortGroups (stalePGs : List String)
  | installHairpinAllowACL

/-- `syncNetworkPolicies`: build the expected-policy set, scan policy-owned
ACLs (aborting on a decode failure before any deletion), scan default-deny
ACLs, delete all accumulated stale port groups in one call, then install the
hairpin-allow ACL.  `deleteOk`/`hairpinOk` are the transaction oracles. -/
def syncNetworkPolicies (expectedPolicies : List (String × String))
    (netpolACLIDs : List String) (defaultDenyACLNamespaces : List String)
    (deleteOk hairpinOk : Bool) : List SyncAction × Option String :=
  match collectStaleNetpolPGs expectedPolicies netpolACLIDs with
  | .error e => ([], some e)
  | .ok staleNetpol =>
    let stalePGs := staleNetpol ∪ collectStaleDefaultDenyPGs expectedPolicies defaultDenyACLNamespaces
    if stalePGs ≠ ∅ then
      if deleteOk then
        if hairpinOk then
          ([SyncAction.deletePortGroups (stalePGs.sort (· ≤ ·)), SyncAction.installHairpinAllowACL],
            none)
        else
          ([SyncAction.deletePortGroups (stalePGs.sort (· ≤ ·)), SyncAction.installHairpinAllowACL],
            some "failed to create allow hairpin acl")
      else
        ([SyncAction.deletePortGroups (stalePGs.sort (· ≤ ·))],
          some "error removing stale port groups")
    else
      if hairpinOk then ([SyncAction.installHairpinAllowACL], none)
      else ([SyncAction.installHairpinAllowACL], some "failed to create allow hairpin acl")

end OvnNetpol

namespace OvnNetpol

/-! Predicates used by the claim statements. -/

/-- The port-name component of `resolvedPortMap` used by `denyPGDeletePorts`:
with `useLocalPods` the map is drained from the policy's `localPods`. -/
def resolvedPortMap (np : networkPolicy) (portNamesToUUIDs : List (String × String))
    (useLocalPods : Bool) : List (String × String) :=
  if useLocalPods then np.localPods else portNamesToUUIDs

/-- A port map whose UUIDs are given by the logical-port cache correspondence
`uuidOf` on the port names. -/
def portMapOf (uuidOf : String → String) (names : List String) : List (String × String) :=
  names.map (fun n => (n, uuidOf n))

/-- Ingress reference map of an optional shared record (absent record has no
references). -/
def ingressRefsOf : Option defaultDenyPortGroups → RefMap
  | none => fun _ => ∅
  | some sharedPGs => sharedPGs.ingressPortToPolicies

/-- Egress reference map of an optional shared record. -/
def egressRefsOf : Option defaultDenyPortGroups → RefMap
  | none => fun _ => ∅
  | some sharedPGs => sharedPGs.egressPortToPolicies

/-- Policies set of an optional shared record. -/
def policiesOf : Option defaultDenyPortGroups → Finset String
  | none => ∅
  | some sharedPGs => sharedPGs.policies

/-- Invariant I1: for every namespace and direction, a port's UUID is a member
of the default-deny port group in the database iff the in-memory reference-map
entry for that port name is non-empty (`uuidOf` is the port-name → port-UUID
correspondence of the logical-port cache). -/
def I1 (uuidOf : String → String) (s : OvnState) : Prop :=
  ∀ ns n,
    (uuidOf n ∈ s.db (defaultDenyPortGroupName ns ingressDefaultDenySuffix) ↔
      ingressRefsOf (s.sharedNetpolPortGroups ns) n ≠ ∅) ∧
    (uuidOf n ∈ s.db (defaultDenyPortGroupName ns egressDefaultDenySuffix) ↔
      egressRefsOf (s.sharedNetpolPortGroups ns) n ≠ ∅)

/-- Caller-supplied pending operations do not target any default-deny port
group (they address per-policy port groups and other objects). -/
def opsAvoidDenyPGs (ops : List Op) : Prop :=
  ∀ op ∈ ops, ∀ ns,
    op.targetPG ≠ some (defaultDenyPortGroupName ns ingressDefaultDenySuffix) ∧
    op.targetPG ≠ some (defaultDenyPortGroupName ns egressDefaultDenySuffix)

/-- None of the given ports currently holds the policy's key in the shared
record (they are new ports for this policy, as guaranteed by the
`localPods`-based filtering of the callers). -/
def portsFreshForPolicy (np : networkPolicy) (sharedPGs : defaultDenyPortGroups)
    (m : List (String × String)) : Prop :=
  ∀ p ∈ m, np.getKey ∉ sharedPGs.ingressPortToPolicies p.1 ∧
    np.getKey ∉ sharedPGs.egressPortToPolicies p.1

/-- Every given port holds the policy's key in the shared record for the
directions the policy has (they were previously added for this policy). -/
def portsOwnedByPolicy (np : networkPolicy) (sharedPGs : defaultDenyPortGroups)
    (m : List (String × String)) : Prop :=
  ∀ p ∈ m, (np.isIngress → np.getKey ∈ sharedPGs.ingressPortToPolicies p.1) ∧
    (np.isEgress → np.getKey ∈ sharedPGs.egressPortToPolicies p.1)

/-- Invariant I2: a namespace's shared record exists iff some policy has joined
and not left (ghost set `joined`), its `policies` set is exactly the joined
keys, and the two database default-deny port groups exist exactly when the
record does. -/
def I2 (s : LifecycleState) (joined : String → Finset String) : Prop :=
  ∀ ns,
    ((s.sharedNetpolPortGroups ns).isSome = true ↔ joined ns ≠ ∅) ∧
    policiesOf (s.sharedNetpolPortGroups ns) = joined ns ∧
    s.pgExists (defaultDenyPortGroupName ns ingressDefaultDenySuffix) =
      (s.sharedNetpolPortGroups ns).isSome ∧
    s.pgExists (defaultDenyPortGroupName ns egressDefaultDenySuffix) =
      (s.sharedNetpolPortGroups ns).isSome

/-- A lifecycle event whose database transaction, if it is a leave that empties
the record, succeeds.  (On a failed leave deletion the record transiently
outlives its last policy; see the C2 counterexample.) -/
def leaveDeleteSucceeds : DDEvent → Prop
  | .join _ _ => True
  | .leave _ deleteOk => deleteOk = true

/-! Concrete example data for evaluating the theorems on explicit inputs. -/

/-- An ingress-only example policy `ns1/p1`. -/
def np1 : networkPolicy :=
  { name := "p1", namespace_ := "ns1", isIngress := true, isEgress := false
    portGroupName := (getNetworkPolicyPGName "ns1" "p1").1, deleted := false
    localPods := [], peerAddressSets := [] }

/-- The example policy after its `deleted` flag has been set by cleanup. -/
def np1del : networkPolicy := { np1 with deleted := true }

/-- An example policy holding two peer-address-set keys. -/
def np1as : networkPolicy := { np1 with peerAddressSets := ["as1", "as2"] }

/-- Cleanup oracles whose address-set releases all fail. -/
def oFailRelease : CleanupOracles :=
  { releaseOk := fun _ => false, portGroupOpsOk := true
    denyPGDeleteOk := true, delDefaultPGOk := true }

/-- A scheduled pod that is expected in the logical-port cache but whose cache
lookup fails (the port has not been added to the cache yet). -/
def podMissing : Pod :=
  { namespace_ := "ns1", name := "q", nodeName := "node1"
    expectedInLogicalCache := true, cacheEntry := none }

/-- The empty controller state. -/
def emptyOvnState : OvnState :=
  { sharedNetpolPortGroups := fun _ => none, db := fun _ => ∅ }

/-- A controller state in which namespace `ns1` has an empty shared record. -/
def ovnState1 : OvnState :=
  { sharedNetpolPortGroups := Function.update (fun _ => none) "ns1" (some emptyDenyPG)
    db := fun _ => ∅ }

/-- The empty lifecycle state. -/
def emptyLifecycleState : LifecycleState :=
  { sharedNetpolPortGroups := fun _ => none, pgExists := fun _ => false }

end OvnNetpol

namespace OvnNetpol

/-! Port-group name disjointness. -/

theorem append_right_cancel_str (a b c : String) (h : a ++ c = b ++ c) : a = b := by
  apply String.ext
  have hd := congrArg String.data h
  rw [String.data_append, String.data_append] at hd
  exact (List.append_inj' hd rfl).1

theorem denyPGName_inj (a b sfx : String)
    (h : defaultDenyPortGroupName a sfx = defaultDenyPortGroupName b sfx) : a = b := by
  have h' : (a ++ "_") ++ sfx = (b ++ "_") ++ sfx := h
  have h1 : a ++ "_" = b ++ "_" := append_right_cancel_str _ _ _ h'
  exact append_right_cancel_str _ _ _ h1

theorem revtake_append_ne (n : ℕ) (A B x y : List Char) (hx : n ≤ x.length)
    (hy : y.length = n) (hne : x.reverse.take n ≠ y.reverse) : A ++ x ≠ B ++ y := by
  intro h
  apply hne
  have h1 : (A ++ x).reverse.take n = x.reverse.take n := by
    rw [List.reverse_append]
    exact List.take_append_of_le_length (by simpa using hx)
  have h2 : (B ++ y).reverse.take n = y.reverse := by
    rw [List.reverse_append]
    exact List.take_left' (by simpa using hy)
  rw [← h1, h, h2]

theorem denyPGName_ingress_ne_egress (a b : String) :
    defaultDenyPortGroupName a ingressDefaultDenySuffix ≠
      defaultDenyPortGroupName b egressDefaultDenySuffix := by
  intro h
  have h' : (a ++ "_") ++ "ingressDefaultDeny" = (b ++ "_") ++ "egressDefaultDeny" := h
  have hd := congrArg String.data h'
  rw [String.data_append, String.data_append] at hd
  exact revtake_append_ne 17 _ _ _ _ (by decide) (by decide) (by decide) hd

theorem denyPGName_egress_ne_ingress (a b : String) :
    defaultDenyPortGroupName a egressDefaultDenySuffix ≠
      defaultDenyPortGroupName b ingressDefaultDenySuffix :=
  fun h => denyPGName_ingress_ne_egress b a h.symm

/-! Effect of committed transactions away from the default-deny port groups. -/

theorem applyOp_other_pg (db : DenyDB) (op : Op) (pg : String)
    (h : op.targetPG ≠ some pg) : applyOp db op pg = db pg := by
  cases op with
  | addPorts pg' ports =>
    have hne : pg ≠ pg' := by
      intro he; exact h (by simp [Op.targetPG, he])
    simp [applyOp, Function.update_apply, hne]
  | delPorts pg' ports =>
    have hne : pg ≠ pg' := by
      intro he; exact h (by simp [Op.targetPG, he])
    simp [applyOp, Function.update_apply, hne]
  | other _ => rfl

theorem applyOps_other_pg (db : DenyDB) (ops : List Op) (pg : String)
    (h : ∀ op ∈ ops, op.targetPG ≠ some pg) : applyOps db ops pg = db pg := by
  induction ops generalizing db with
  | nil => rfl
  | cons op rest ih =>
    have : applyOps db (op :: rest) = applyOps (applyOp db op) rest := rfl
    rw [this, ih _ (fun o ho => h o (List.mem_cons_of_mem _ ho)),
      applyOp_other_pg _ _ _ (h op (List.mem_cons_self _ _))]

/-! Characterization of the reference-map loops. -/

theorem addPortsDir_refs (key : String) (m : List (String × String)) (refs : RefMap)
    (n : String) :
    (addPortsDir key m refs).2 n =
      if n ∈ m.map Prod.fst then insert key (refs n) else refs n := by
  induction m generalizing refs with
  | nil => simp [addPortsDir]
  | cons p rest ih =>
    by_cases h : refs p.1 = ∅
    · simp only [addPortsDir, if_pos h]
      rw [ih]
      simp only [List.map_cons, List.mem_cons, Function.update_apply]
      by_cases hn : n = p.1
      · by_cases hr : n ∈ rest.map Prod.fst <;> simp [hr, hn, h, Finset.insert_idem]
      · by_cases hr : n ∈ rest.map Prod.fst <;> simp [hr, hn]
    · simp only [addPortsDir, if_neg h]
      rw [ih]
      simp only [List.map_cons, List.mem_cons, Function.update_apply]
      by_cases hn : n = p.1
      · by_cases hr : n ∈ rest.map Prod.fst <;> simp [hr, hn, Finset.insert_idem]
      · by_cases hr : n ∈ rest.map Prod.fst <;> simp [hr, hn]

theorem deletePortsDir_refs (key : String) (m : List (String × String)) (refs : RefMap)
    (n : String) :
    (deletePortsDir key m refs).2 n =
      if n ∈ m.map Prod.fst then (refs n).erase key else refs n := by
  induction m generalizing refs with
  | nil => simp [deletePortsDir]
  | cons p rest ih =>
    by_cases h : (refs p.1).erase key = ∅
    · simp only [deletePortsDir, if_pos h]
      rw [ih]
      simp only [List.map_cons, List.mem_cons, Function.update_apply]
      by_cases hn : n = p.1
      · by_cases hr : n ∈ rest.map Prod.fst <;> simp [hr, hn, h, Finset.erase_idem]
      · by_cases hr : n ∈ rest.map Prod.fst <;> simp [hr, hn]
    · simp only [deletePortsDir, if_neg h]
      rw [ih]
      simp only [List.map_cons, List.mem_cons, Function.update_apply]
      by_cases hn : n = p.1
      · by_cases hr : n ∈ rest.map Prod.fst <;> simp [hr, hn, Finset.erase_idem]
      · by_cases hr : n ∈ rest.map Prod.fst <;> simp [hr, hn]

theorem addPortsDir_emitted (key : String) (m : List (String × String)) (refs : RefMap)
    (hnd : (m.map Prod.fst).Nodup) :
    (addPortsDir key m refs).1 =
      (m.filter (fun p => decide (refs p.1 = ∅))).map Prod.snd := by
  induction m generalizing refs with
  | nil => simp [addPortsDir]
  | cons p rest ih =>
    simp only [List.map_cons, List.nodup_cons] at hnd
    obtain ⟨hp, hrest⟩ := hnd
    have hcongr : ∀ g : Finset String, ∀ q ∈ rest,
        decide (Function.update refs p.1 g q.1 = ∅) = decide (refs q.1 = ∅) := by
      intro g q hq
      have hne : q.1 ≠ p.1 := fun he => hp (he ▸ List.mem_map_of_mem Prod.fst hq)
      rw [Function.update_apply, if_neg hne]
    by_cases h : refs p.1 = ∅
    · simp only [addPortsDir, if_pos h]
      rw [ih _ hrest, List.filter_congr (hcongr _), List.filter_cons]
      simp [h]
    · simp only [addPortsDir, if_neg h]
      rw [ih _ hrest, List.filter_congr (hcongr _), List.filter_cons]
      simp [h]

theorem deletePortsDir_emitted (key : String) (m : List (String × String)) (refs : RefMap)
    (hnd : (m.map Prod.fst).Nodup) :
    (deletePortsDir key m refs).1 =
      (m.filter (fun p => decide ((refs p.1).erase key = ∅))).map Prod.snd := by
  induction m generalizing refs with
  | nil => simp [deletePortsDir]
  | cons p rest ih =>
    simp only [List.map_cons, List.nodup_cons] at hnd
    obtain ⟨hp, hrest⟩ := hnd
    have hcongr : ∀ g : Finset String, ∀ q ∈ rest,
        decide ((Function.update refs p.1 g q.1).erase key = ∅) =
          decide ((refs q.1).erase key = ∅) := by
      intro g q hq
      have hne : q.1 ≠ p.1 := fun he => hp (he ▸ List.mem_map_of_mem Prod.fst hq)
      rw [Function.update_apply, if_neg hne]
    by_cases h : (refs p.1).erase key = ∅
    · simp only [deletePortsDir, if_pos h]
      rw [ih _ hrest, List.filter_congr (hcongr _), List.filter_cons]
      simp [h]
    · simp only [deletePortsDir, if_neg h]
      rw [ih _ hrest, List.filter_congr (hcongr _), List.filter_cons]
      simp [h]

/-! Round trips of the two loops. -/

theorem addDir_deleteDir_refs (key : String) (m : List (String × String)) (refs : RefMap)
    (hk : ∀ p ∈ m, key ∉ refs p.1) :
    (deletePortsDir key m (addPortsDir key m refs).2).2 = refs := by
  funext n
  rw [deletePortsDir_refs, addPortsDir_refs]
  by_cases hn : n ∈ m.map Prod.fst
  · simp only [if_pos hn]
    obtain ⟨p, hp, hpe⟩ := List.mem_map.mp hn
    exact Finset.erase_insert (hpe ▸ hk p hp)
  · simp [hn]

theorem deleteDir_addDir_refs (key : String) (m : List (String × String)) (refs : RefMap)
    (hk : ∀ p ∈ m, key ∈ refs p.1) :
    (addPortsDir key m (deletePortsDir key m refs).2).2 = refs := by
  funext n
  rw [addPortsDir_refs, deletePortsDir_refs]
  by_cases hn : n ∈ m.map Prod.fst
  · simp only [if_pos hn]
    obtain ⟨p, hp, hpe⟩ := List.mem_map.mp hn
    exact Finset.insert_erase (hpe ▸ hk p hp)
  · simp [hn]

theorem deleteDir_after_addDir_emitted (key : String) (m : List (String × String))
    (refs : RefMap) (hnd : (m.map Prod.fst).Nodup) (hk : ∀ p ∈ m, key ∉ refs p.1) :
    (deletePortsDir key m (addPortsDir key m refs).2).1 = (addPortsDir key m refs).1 := by
  rw [deletePortsDir_emitted _ _ _ hnd, addPortsDir_emitted _ _ _ hnd]
  apply congrArg
  apply List.filter_congr
  intro p hp
  rw [addPortsDir_refs]
  simp only [if_pos (List.mem_map_of_mem Prod.fst hp)]
  rw [Finset.erase_insert (hk p hp)]

end OvnNetpol

namespace OvnNetpol

/-! Record-level characterization of `addPortsForPolicy` / `deletePortsForPolicy`. -/

theorem ddpg_ext (a b : defaultDenyPortGroups)
    (h1 : a.ingressPortToPolicies = b.ingressPortToPolicies)
    (h2 : a.egressPortToPolicies = b.egressPortToPolicies)
    (h3 : a.policies = b.policies) : a = b := by
  cases a; cases b; simp_all

theorem addPortsForPolicy_ing_refs (sharedPGs : defaultDenyPortGroups)
    (np : networkPolicy) (m : List (String × String)) (n : String) :
    (sharedPGs.addPortsForPolicy np m).2.2.ingressPortToPolicies n =
      if np.isIngress ∧ n ∈ m.map Prod.fst then
        insert np.getKey (sharedPGs.ingressPortToPolicies n)
      else sharedPGs.ingressPortToPolicies n := by
  by_cases hi : np.isIngress <;> by_cases hm : n ∈ m.map Prod.fst <;>
    simp [defaultDenyPortGroups.addPortsForPolicy, hi, hm, addPortsDir_refs]

theorem addPortsForPolicy_eg_refs (sharedPGs : defaultDenyPortGroups)
    (np : networkPolicy) (m : List (String × String)) (n : String) :
    (sharedPGs.addPortsForPolicy np m).2.2.egressPortToPolicies n =
      if np.isEgress ∧ n ∈ m.map Prod.fst then
        insert np.getKey (sharedPGs.egressPortToPolicies n)
      else sharedPGs.egressPortToPolicies n := by
  by_cases he : np.isEgress <;> by_cases hm : n ∈ m.map Prod.fst <;>
    simp [defaultDenyPortGroups.addPortsForPolicy, he, hm, addPortsDir_refs]

theorem deletePortsForPolicy_ing_refs (sharedPGs : defaultDenyPortGroups)
    (np : networkPolicy) (m : List (String × String)) (n : String) :
    (sharedPGs.deletePortsForPolicy np m).2.2.ingressPortToPolicies n =
      if np.isIngress ∧ n ∈ m.map Prod.fst then
        (sharedPGs.ingressPortToPolicies n).erase np.getKey
      else sharedPGs.ingressPortToPolicies n := by
  by_cases hi : np.isIngress <;> by_cases hm : n ∈ m.map Prod.fst <;>
    simp [defaultDenyPortGroups.deletePortsForPolicy, hi, hm, deletePortsDir_refs]

theorem deletePortsForPolicy_eg_refs (sharedPGs : defaultDenyPortGroups)
    (np : networkPolicy) (m : List (String × String)) (n : String) :
    (sharedPGs.deletePortsForPolicy np m).2.2.egressPortToPolicies n =
      if np.isEgress ∧ n ∈ m.map Prod.fst then
        (sharedPGs.egressPortToPolicies n).erase np.getKey
      else sharedPGs.egressPortToPolicies n := by
  by_cases he : np.isEgress <;> by_cases hm : n ∈ m.map Prod.fst <;>
    simp [defaultDenyPortGroups.deletePortsForPolicy, he, hm, deletePortsDir_refs]

theorem addPortsForPolicy_ing_emitted (sharedPGs : defaultDenyPortGroups)
    (np : networkPolicy) (m : List (String × String)) (hnd : (m.map Prod.fst).Nodup) :
    (sharedPGs.addPortsForPolicy np m).1 =
      if np.isIngress then
        (m.filter (fun p => decide (sharedPGs.ingressPortToPolicies p.1 = ∅))).map Prod.snd
      else [] := by
  by_cases hi : np.isIngress <;>
    simp [defaultDenyPortGroups.addPortsForPolicy, hi, addPortsDir_emitted _ _ _ hnd]

theorem addPortsForPolicy_eg_emitted (sharedPGs : defaultDenyPortGroups)
    (np : networkPolicy) (m : List (String × String)) (hnd : (m.map Prod.fst).Nodup) :
    (sharedPGs.addPortsForPolicy np m).2.1 =
      if np.isEgress then
        (m.filter (fun p => decide (sharedPGs.egressPortToPolicies p.1 = ∅))).map Prod.snd
      else [] := by
  by_cases he : np.isEgress <;>
    simp [defaultDenyPortGroups.addPortsForPolicy, he, addPortsDir_emitted _ _ _ hnd]

theorem deletePortsForPolicy_ing_emitted (sharedPGs : defaultDenyPortGroups)
    (np : networkPolicy) (m : List (String × String)) (hnd : (m.map Prod.fst).Nodup) :
    (sharedPGs.deletePortsForPolicy np m).1 =
      if np.isIngress then
        (m.filter (fun p =>
          decide ((sharedPGs.ingressPortToPolicies p.1).erase np.getKey = ∅))).map Prod.snd
      else [] := by
  by_cases hi : np.isIngress <;>
    simp [defaultDenyPortGroups.deletePortsForPolicy, hi, deletePortsDir_emitted _ _ _ hnd]

theorem deletePortsForPolicy_eg_emitted (sharedPGs : defaultDenyPortGroups)
    (np : networkPolicy) (m : List (String × String)) (hnd : (m.map Prod.fst).Nodup) :
    (sharedPGs.deletePortsForPolicy np m).2.1 =
      if np.isEgress then
        (m.filter (fun p =>
          decide ((sharedPGs.egressPortToPolicies p.1).erase np.getKey = ∅))).map Prod.snd
      else [] := by
  by_cases he : np.isEgress <;>
    simp [defaultDenyPortGroups.deletePortsForPolicy, he, deletePortsDir_emitted _ _ _ hnd]

theorem addPortsForPolicy_policies (sharedPGs : defaultDenyPortGroups)
    (np : networkPolicy) (m : List (String × String)) :
    (sharedPGs.addPortsForPolicy np m).2.2.policies = sharedPGs.policies := rfl

theorem deletePortsForPolicy_policies (sharedPGs : defaultDenyPortGroups)
    (np : networkPolicy) (m : List (String × String)) :
    (sharedPGs.deletePortsForPolicy np m).2.2.policies = sharedPGs.policies := rfl

/-! Round trips at the record level. -/

theorem addPorts_then_deletePorts_record (np : networkPolicy) (m : List (String × String))
    (sharedPGs : defaultDenyPortGroups) (hfresh : portsFreshForPolicy np sharedPGs m) :
    ((sharedPGs.addPortsForPolicy np m).2.2.deletePortsForPolicy np m).2.2 = sharedPGs := by
  apply ddpg_ext
  · funext n
    rw [deletePortsForPolicy_ing_refs, addPortsForPolicy_ing_refs]
    by_cases hc : np.isIngress ∧ n ∈ m.map Prod.fst
    · rw [if_pos hc, if_pos hc]
      obtain ⟨p, hp, hpe⟩ := List.mem_map.mp hc.2
      exact Finset.erase_insert (hpe ▸ (hfresh p hp).1)
    · rw [if_neg hc, if_neg hc]
  · funext n
    rw [deletePortsForPolicy_eg_refs, addPortsForPolicy_eg_refs]
    by_cases hc : np.isEgress ∧ n ∈ m.map Prod.fst
    · rw [if_pos hc, if_pos hc]
      obtain ⟨p, hp, hpe⟩ := List.mem_map.mp hc.2
      exact Finset.erase_insert (hpe ▸ (hfresh p hp).2)
    · rw [if_neg hc, if_neg hc]
  · rw [deletePortsForPolicy_policies, addPortsForPolicy_policies]

theorem deletePorts_then_addPorts_record (np : networkPolicy) (m : List (String × String))
    (sharedPGs : defaultDenyPortGroups) (hown : portsOwnedByPolicy np sharedPGs m) :
    ((sharedPGs.deletePortsForPolicy np m).2.2.addPortsForPolicy np m).2.2 = sharedPGs := by
  apply ddpg_ext
  · funext n
    rw [addPortsForPolicy_ing_refs, deletePortsForPolicy_ing_refs]
    by_cases hc : np.isIngress ∧ n ∈ m.map Prod.fst
    · rw [if_pos hc, if_pos hc]
      obtain ⟨p, hp, hpe⟩ := List.mem_map.mp hc.2
      exact Finset.insert_erase (hpe ▸ (hown p hp).1 hc.1)
    · rw [if_neg hc, if_neg hc]
  · funext n
    rw [addPortsForPolicy_eg_refs, deletePortsForPolicy_eg_refs]
    by_cases hc : np.isEgress ∧ n ∈ m.map Prod.fst
    · rw [if_pos hc, if_pos hc]
      obtain ⟨p, hp, hpe⟩ := List.mem_map.mp hc.2
      exact Finset.insert_erase (hpe ▸ (hown p hp).2 hc.1)
    · rw [if_neg hc, if_neg hc]
  · rw [addPortsForPolicy_policies, deletePortsForPolicy_policies]

theorem delete_after_add_ing_emitted (np : networkPolicy) (m : List (String × String))
    (sharedPGs : defaultDenyPortGroups) (hnd : (m.map Prod.fst).Nodup)
    (hfresh : portsFreshForPolicy np sharedPGs m) :
    ((sharedPGs.addPortsForPolicy np m).2.2.deletePortsForPolicy np m).1 =
      (sharedPGs.addPortsForPolicy np m).1 := by
  rw [deletePortsForPolicy_ing_emitted _ _ _ hnd, addPortsForPolicy_ing_emitted _ _ _ hnd]
  by_cases hi : np.isIngress
  · rw [if_pos hi, if_pos hi]
    apply congrArg
    apply List.filter_congr
    intro p hp
    rw [addPortsForPolicy_ing_refs, if_pos ⟨hi, List.mem_map_of_mem Prod.fst hp⟩,
      Finset.erase_insert ((hfresh p hp).1)]
  · rw [if_neg hi, if_neg hi]

theorem delete_after_add_eg_emitted (np : networkPolicy) (m : List (String × String))
    (sharedPGs : defaultDenyPortGroups) (hnd : (m.map Prod.fst).Nodup)
    (hfresh : portsFreshForPolicy np sharedPGs m) :
    ((sharedPGs.addPortsForPolicy np m).2.2.deletePortsForPolicy np m).2.1 =
      (sharedPGs.addPortsForPolicy np m).2.1 := by
  rw [deletePortsForPolicy_eg_emitted _ _ _ hnd, addPortsForPolicy_eg_emitted _ _ _ hnd]
  by_cases he : np.isEgress
  · rw [if_pos he, if_pos he]
    apply congrArg
    apply List.filter_congr
    intro p hp
    rw [addPortsForPolicy_eg_refs, if_pos ⟨he, List.mem_map_of_mem Prod.fst hp⟩,
      Finset.erase_insert ((hfresh p hp).2)]
  · rw [if_neg he, if_neg he]

/-! Port maps built from the logical-port cache correspondence. -/

theorem portMapOf_map_fst (uuidOf : String → String) (names : List String) :
    (portMapOf uuidOf names).map Prod.fst = names := by
  induction names with
  | nil => rfl
  | cons a t ih =>
    simp only [portMapOf, List.map_cons] at ih ⊢
    rw [ih]

theorem filter_portMapOf (uuidOf : String → String) (names : List String)
    (P : String → Bool) :
    ((portMapOf uuidOf names).filter (fun p => P p.1)).map Prod.snd =
      (names.filter P).map uuidOf := by
  induction names with
  | nil => rfl
  | cons a t ih =>
    simp only [portMapOf, List.map_cons, List.filter_cons] at ih ⊢
    by_cases h : P a <;> simp [h, ih]

theorem mem_toFinset_map_uuid (uuidOf : String → String)
    (hinj : Function.Injective uuidOf) (l : List String) (n : String) :
    uuidOf n ∈ (l.map uuidOf).toFinset ↔ n ∈ l := by
  simp only [List.mem_toFinset, List.mem_map]
  constructor
  · rintro ⟨x, hx, he⟩
    rwa [hinj he] at hx
  · intro h
    exact ⟨n, h, rfl⟩

end OvnNetpol

namespace OvnNetpol

/-! Values of committed deny-port-group transactions at the deny port-group
names. -/

theorem applyOps_two_tail (db : DenyDB) (ops : List Op) (op1 op2 : Op) :
    applyOps db (ops ++ [op1, op2]) = applyOp (applyOp (applyOps db ops) op1) op2 := by
  simp [applyOps, List.foldl_append]

theorem applyOps_addDeny_at_ing (db : DenyDB) (ops : List Op) (hops : opsAvoidDenyPGs ops)
    (ns0 ns : String) (ing eg : List String) :
    applyOps db (ops ++
        [Op.addPorts (defaultDenyPortGroupName ns0 ingressDefaultDenySuffix) ing,
         Op.addPorts (defaultDenyPortGroupName ns0 egressDefaultDenySuffix) eg])
      (defaultDenyPortGroupName ns ingressDefaultDenySuffix) =
    if ns = ns0 then
      db (defaultDenyPortGroupName ns ingressDefaultDenySuffix) ∪ ing.toFinset
    else db (defaultDenyPortGroupName ns ingressDefaultDenySuffix) := by
  have hbase : applyOps db ops (defaultDenyPortGroupName ns ingressDefaultDenySuffix) =
      db (defaultDenyPortGroupName ns ingressDefaultDenySuffix) :=
    applyOps_other_pg _ _ _ (fun op hop => (hops op hop ns).1)
  rw [applyOps_two_tail]
  rw [applyOp_other_pg _ _ _ (by
    simp only [Op.targetPG, ne_eq, Option.some.injEq]
    exact fun he => denyPGName_egress_ne_ingress ns0 ns he)]
  simp only [applyOp]
  rw [Function.update_apply]
  by_cases h : ns = ns0
  · subst h
    rw [if_pos rfl, if_pos rfl, hbase]
  · rw [if_neg (fun he => h (denyPGName_inj _ _ _ he)), if_neg h, hbase]

theorem applyOps_addDeny_at_eg (db : DenyDB) (ops : List Op) (hops : opsAvoidDenyPGs ops)
    (ns0 ns : String) (ing eg : List String) :
    applyOps db (ops ++
        [Op.addPorts (defaultDenyPortGroupName ns0 ingressDefaultDenySuffix) ing,
         Op.addPorts (defaultDenyPortGroupName ns0 egressDefaultDenySuffix) eg])
      (defaultDenyPortGroupName ns egressDefaultDenySuffix) =
    if ns = ns0 then
      db (defaultDenyPortGroupName ns egressDefaultDenySuffix) ∪ eg.toFinset
    else db (defaultDenyPortGroupName ns egressDefaultDenySuffix) := by
  have hbase : ∀ x, applyOps db ops (defaultDenyPortGroupName x egressDefaultDenySuffix) =
      db (defaultDenyPortGroupName x egressDefaultDenySuffix) :=
    fun x => applyOps_other_pg _ _ _ (fun op hop => (hops op hop x).2)
  rw [applyOps_two_tail]
  simp only [applyOp]
  rw [Function.update_apply]
  by_cases h : ns = ns0
  · subst h
    rw [if_pos rfl, if_pos rfl]
    rw [Function.update_apply, if_neg (denyPGName_egress_ne_ingress ns ns), hbase]
  · rw [if_neg (fun he => h (denyPGName_inj _ _ _ he)), if_neg h]
    rw [Function.update_apply, if_neg (denyPGName_egress_ne_ingress ns ns0), hbase]

theorem applyOps_delDeny_at_ing (db : DenyDB) (ops : List Op) (hops : opsAvoidDenyPGs ops)
    (ns0 ns : String) (ing eg : List String) :
    applyOps db (ops ++
        [Op.delPorts (defaultDenyPortGroupName ns0 ingressDefaultDenySuffix) ing,
         Op.delPorts (defaultDenyPortGroupName ns0 egressDefaultDenySuffix) eg])
      (defaultDenyPortGroupName ns ingressDefaultDenySuffix) =
    if ns = ns0 then
      db (defaultDenyPortGroupName ns ingressDefaultDenySuffix) \ ing.toFinset
    else db (defaultDenyPortGroupName ns ingressDefaultDenySuffix) := by
  have hbase : applyOps db ops (defaultDenyPortGroupName ns ingressDefaultDenySuffix) =
      db (defaultDenyPortGroupName ns ingressDefaultDenySuffix) :=
    applyOps_other_pg _ _ _ (fun op hop => (hops op hop ns).1)
  rw [applyOps_two_tail]
  rw [applyOp_other_pg _ _ _ (by
    simp only [Op.targetPG, ne_eq, Option.some.injEq]
    exact fun he => denyPGName_egress_ne_ingress ns0 ns he)]
  simp only [applyOp]
  rw [Function.update_apply]
  by_cases h : ns = ns0
  · subst h
    rw [if_pos rfl, if_pos rfl, hbase]
  · rw [if_neg (fun he => h (denyPGName_inj _ _ _ he)), if_neg h, hbase]

theorem applyOps_delDeny_at_eg (db : DenyDB) (ops : List Op) (hops : opsAvoidDenyPGs ops)
    (ns0 ns : String) (ing eg : List String) :
    applyOps db (ops ++
        [Op.delPorts (defaultDenyPortGroupName ns0 ingressDefaultDenySuffix) ing,
         Op.delPorts (defaultDenyPortGroupName ns0 egressDefaultDenySuffix) eg])
      (defaultDenyPortGroupName ns egressDefaultDenySuffix) =
    if ns = ns0 then
      db (defaultDenyPortGroupName ns egressDefaultDenySuffix) \ eg.toFinset
    else db (defaultDenyPortGroupName ns egressDefaultDenySuffix) := by
  have hbase : ∀ x, applyOps db ops (defaultDenyPortGroupName x egressDefaultDenySuffix) =
      db (defaultDenyPortGroupName x egressDefaultDenySuffix) :=
    fun x => applyOps_other_pg _ _ _ (fun op hop => (hops op hop x).2)
  rw [applyOps_two_tail]
  simp only [applyOp]
  rw [Function.update_apply]
  by_cases h : ns = ns0
  · subst h
    rw [if_pos rfl, if_pos rfl]
    rw [Function.update_apply, if_neg (denyPGName_egress_ne_ingress ns ns), hbase]
  · rw [if_neg (fun he => h (denyPGName_inj _ _ _ he)), if_neg h]
    rw [Function.update_apply, if_neg (denyPGName_egress_ne_ingress ns ns0), hbase]

/-! Membership equivalences for one direction of a default-deny port group. -/

theorem add_dir_iff (uuidOf : String → String) (hinj : Function.Injective uuidOf)
    (db0 : Finset String) (refs : RefMap) (key : String) (names : List String)
    (active : Bool) (n : String) (hbase : uuidOf n ∈ db0 ↔ refs n ≠ ∅) :
    (uuidOf n ∈ db0 ∪ (if active then
        (names.filter (fun x => decide (refs x = ∅))).map uuidOf else []).toFinset ↔
      (if active ∧ n ∈ names then insert key (refs n) else refs n) ≠ ∅) := by
  by_cases ha : active
  · rw [if_pos ha]
    by_cases hn : n ∈ names
    · have hne : insert key (refs n) ≠ ∅ := Finset.insert_ne_empty _ _
      rw [if_pos ⟨ha, hn⟩]
      refine iff_of_true ?_ hne
      by_cases hz : refs n = ∅
      · exact Finset.mem_union_right _
          ((mem_toFinset_map_uuid uuidOf hinj _ n).mpr
            (List.mem_filter.mpr ⟨hn, by simp [hz]⟩))
      · exact Finset.mem_union_left _ (hbase.mpr hz)
    · rw [if_neg (fun hc => hn hc.2), Finset.mem_union]
      constructor
      · rintro (h | h)
        · exact hbase.mp h
        · exact absurd (List.mem_filter.mp
            ((mem_toFinset_map_uuid uuidOf hinj _ n).mp h)).1 hn
      · intro h
        exact Or.inl (hbase.mpr h)
  · have ha' : ¬ (active = true ∧ n ∈ names) := fun hc => ha hc.1
    rw [if_neg ha, if_neg ha']
    simp only [List.toFinset_nil, Finset.union_empty]
    exact hbase

theorem del_dir_iff (uuidOf : String → String) (hinj : Function.Injective uuidOf)
    (db0 : Finset String) (refs : RefMap) (key : String) (names : List String)
    (active : Bool) (n : String) (hbase : uuidOf n ∈ db0 ↔ refs n ≠ ∅)
    (hown : active → ∀ x ∈ names, key ∈ refs x) :
    (uuidOf n ∈ db0 \ (if active then
        (names.filter (fun x => decide ((refs x).erase key = ∅))).map uuidOf
        else []).toFinset ↔
      (if active ∧ n ∈ names then (refs n).erase key else refs n) ≠ ∅) := by
  by_cases ha : active
  · rw [if_pos ha]
    by_cases hn : n ∈ names
    · have hk : key ∈ refs n := hown ha n hn
      have hne : refs n ≠ ∅ := fun hz => by
        rw [hz] at hk
        exact absurd hk (Finset.not_mem_empty _)
      rw [if_pos ⟨ha, hn⟩, Finset.mem_sdiff]
      by_cases hz : (refs n).erase key = ∅
      · have hmem : uuidOf n ∈
            ((names.filter (fun x => decide ((refs x).erase key = ∅))).map uuidOf).toFinset :=
          (mem_toFinset_map_uuid uuidOf hinj _ n).mpr
            (List.mem_filter.mpr ⟨hn, by simp [hz]⟩)
        simp [hz, hmem]
      · have hnotmem : uuidOf n ∉
            ((names.filter (fun x => decide ((refs x).erase key = ∅))).map uuidOf).toFinset :=
          fun hmem => hz (by
            have := (List.mem_filter.mp ((mem_toFinset_map_uuid uuidOf hinj _ n).mp hmem)).2
            exact of_decide_eq_true this)
        simp [hz, hnotmem, hbase.mpr hne]
    · rw [if_neg (fun hc => hn hc.2), Finset.mem_sdiff]
      have hnotmem : uuidOf n ∉
          ((names.filter (fun x => decide ((refs x).erase key = ∅))).map uuidOf).toFinset :=
        fun hmem => hn (List.mem_filter.mp ((mem_toFinset_map_uuid uuidOf hinj _ n).mp hmem)).1
      simp [hnotmem, hbase]
  · have ha' : ¬ (active = true ∧ n ∈ names) := fun hc => ha hc.1
    rw [if_neg ha, if_neg ha']
    simp only [List.toFinset_nil, Finset.sdiff_empty]
    exact hbase

end OvnNetpol

namespace OvnNetpol

/-! Preservation of I1 by the two deny-port-group synchronization functions. -/

theorem I1_applyOps_other (uuidOf : String → String) (s : OvnState) (ops : List Op)
    (hops : opsAvoidDenyPGs ops) (hI : I1 uuidOf s) :
    I1 uuidOf { s with db := applyOps s.db ops } := by
  intro ns n
  dsimp only
  constructor
  · rw [applyOps_other_pg _ _ _ (fun op hop => (hops op hop ns).1)]
    exact (hI ns n).1
  · rw [applyOps_other_pg _ _ _ (fun op hop => (hops op hop ns).2)]
    exact (hI ns n).2

theorem denyPGAddPorts_preserves_I1 (uuidOf : String → String) (np : networkPolicy)
    (names : List String) (ops : List Op) (txnOk : Bool) (s : OvnState)
    (hinj : Function.Injective uuidOf) (hops : opsAvoidDenyPGs ops) (hnd : names.Nodup)
    (hI : I1 uuidOf s)
    (hfresh : ∀ sharedPGs, s.sharedNetpolPortGroups np.namespace_ = some sharedPGs →
      portsFreshForPolicy np sharedPGs (portMapOf uuidOf names)) :
    I1 uuidOf (denyPGAddPorts np (portMapOf uuidOf names) ops txnOk s).state := by
  cases hrec : s.sharedNetpolPortGroups np.namespace_ with
  | none =>
    simp only [denyPGAddPorts, hrec]
    exact hI
  | some sharedPGs =>
    have hnd' : ((portMapOf uuidOf names).map Prod.fst).Nodup := by
      rw [portMapOf_map_fst]
      exact hnd
    have hfr := hfresh sharedPGs hrec
    have hingE : (sharedPGs.addPortsForPolicy np (portMapOf uuidOf names)).1 =
        if np.isIngress then
          (names.filter (fun x => decide (sharedPGs.ingressPortToPolicies x = ∅))).map uuidOf
        else [] := by
      rw [addPortsForPolicy_ing_emitted _ _ _ hnd']
      by_cases hi : np.isIngress
      · rw [if_pos hi, if_pos hi]
        exact filter_portMapOf uuidOf names
          (fun x => decide (sharedPGs.ingressPortToPolicies x = ∅))
      · rw [if_neg hi, if_neg hi]
    have hegE : (sharedPGs.addPortsForPolicy np (portMapOf uuidOf names)).2.1 =
        if np.isEgress then
          (names.filter (fun x => decide (sharedPGs.egressPortToPolicies x = ∅))).map uuidOf
        else [] := by
      rw [addPortsForPolicy_eg_emitted _ _ _ hnd']
      by_cases he : np.isEgress
      · rw [if_pos he, if_pos he]
        exact filter_portMapOf uuidOf names
          (fun x => decide (sharedPGs.egressPortToPolicies x = ∅))
      · rw [if_neg he, if_neg he]
    have hingR : ∀ x,
        (sharedPGs.addPortsForPolicy np (portMapOf uuidOf names)).2.2.ingressPortToPolicies x =
          if np.isIngress ∧ x ∈ names then
            insert np.getKey (sharedPGs.ingressPortToPolicies x)
          else sharedPGs.ingressPortToPolicies x := by
      intro x
      rw [addPortsForPolicy_ing_refs, portMapOf_map_fst]
    have hegR : ∀ x,
        (sharedPGs.addPortsForPolicy np (portMapOf uuidOf names)).2.2.egressPortToPolicies x =
          if np.isEgress ∧ x ∈ names then
            insert np.getKey (sharedPGs.egressPortToPolicies x)
          else sharedPGs.egressPortToPolicies x := by
      intro x
      rw [addPortsForPolicy_eg_refs, portMapOf_map_fst]
    simp only [denyPGAddPorts, hrec]
    by_cases ht : txnOk
    · rw [if_pos ht]
      intro ns n
      dsimp only
      have hdbI : applyOps s.db
          (if (sharedPGs.addPortsForPolicy np (portMapOf uuidOf names)).1 ≠ [] ∨
              (sharedPGs.addPortsForPolicy np (portMapOf uuidOf names)).2.1 ≠ [] then
            ops ++ [Op.addPorts (defaultDenyPortGroupName np.namespace_ ingressDefaultDenySuffix)
                      (sharedPGs.addPortsForPolicy np (portMapOf uuidOf names)).1,
                    Op.addPorts (defaultDenyPortGroupName np.namespace_ egressDefaultDenySuffix)
                      (sharedPGs.addPortsForPolicy np (portMapOf uuidOf names)).2.1]
          else ops) (defaultDenyPortGroupName ns ingressDefaultDenySuffix) =
          if ns = np.namespace_ then
            s.db (defaultDenyPortGroupName ns ingressDefaultDenySuffix) ∪
              (sharedPGs.addPortsForPolicy np (portMapOf uuidOf names)).1.toFinset
          else s.db (defaultDenyPortGroupName ns ingressDefaultDenySuffix) := by
        by_cases hne : (sharedPGs.addPortsForPolicy np (portMapOf uuidOf names)).1 ≠ [] ∨
            (sharedPGs.addPortsForPolicy np (portMapOf uuidOf names)).2.1 ≠ []
        · rw [if_pos hne]
          exact applyOps_addDeny_at_ing s.db ops hops np.namespace_ ns _ _
        · rw [if_neg hne]
          push_neg at hne
          rw [applyOps_other_pg _ _ _ (fun op hop => (hops op hop ns).1), hne.1]
          simp
      have hdbE : applyOps s.db
          (if (sharedPGs.addPortsForPolicy np (portMapOf uuidOf names)).1 ≠ [] ∨
              (sharedPGs.addPortsForPolicy np (portMapOf uuidOf names)).2.1 ≠ [] then
            ops ++ [Op.addPorts (defaultDenyPortGroupName np.namespace_ ingressDefaultDenySuffix)
                      (sharedPGs.addPortsForPolicy np (portMapOf uuidOf names)).1,
                    Op.addPorts (defaultDenyPortGroupName np.namespace_ egressDefaultDenySuffix)
                      (sharedPGs.addPortsForPolicy np (portMapOf uuidOf names)).2.1]
          else ops) (defaultDenyPortGroupName ns egressDefaultDenySuffix) =
          if ns = np.namespace_ then
            s.db (defaultDenyPortGroupName ns egressDefaultDenySuffix) ∪
              (sharedPGs.addPortsForPolicy np (portMapOf uuidOf names)).2.1.toFinset
          else s.db (defaultDenyPortGroupName ns egressDefaultDenySuffix) := by
        by_cases hne : (sharedPGs.addPortsForPolicy np (portMapOf uuidOf names)).1 ≠ [] ∨
            (sharedPGs.addPortsForPolicy np (portMapOf uuidOf names)).2.1 ≠ []
        · rw [if_pos hne]
          exact applyOps_addDeny_at_eg s.db ops hops np.namespace_ ns _ _
        · rw [if_neg hne]
          push_neg at hne
          rw [applyOps_other_pg _ _ _ (fun op hop => (hops op hop ns).2), hne.2]
          simp
      rw [hdbI, hdbE, Function.update_apply]
      by_cases hns : ns = np.namespace_
      · rw [if_pos hns, if_pos hns, if_pos hns]
        have hrec2 : s.sharedNetpolPortGroups ns = some sharedPGs := by
          rw [hns]
          exact hrec
        constructor
        · have hbase : uuidOf n ∈ s.db (defaultDenyPortGroupName ns ingressDefaultDenySuffix) ↔
              sharedPGs.ingressPortToPolicies n ≠ ∅ := by
            have h0 := (hI ns n).1
            rwa [hrec2] at h0
          rw [hingE]
          show _ ↔ (sharedPGs.addPortsForPolicy np
            (portMapOf uuidOf names)).2.2.ingressPortToPolicies n ≠ ∅
          rw [hingR n]
          exact add_dir_iff uuidOf hinj _ _ np.getKey names np.isIngress n hbase
        · have hbase : uuidOf n ∈ s.db (defaultDenyPortGroupName ns egressDefaultDenySuffix) ↔
              sharedPGs.egressPortToPolicies n ≠ ∅ := by
            have h0 := (hI ns n).2
            rwa [hrec2] at h0
          rw [hegE]
          show _ ↔ (sharedPGs.addPortsForPolicy np
            (portMapOf uuidOf names)).2.2.egressPortToPolicies n ≠ ∅
          rw [hegR n]
          exact add_dir_iff uuidOf hinj _ _ np.getKey names np.isEgress n hbase
      · rw [if_neg hns, if_neg hns, if_neg hns]
        exact hI ns n
    · rw [if_neg ht]
      dsimp only
      rw [addPorts_then_deletePorts_record np (portMapOf uuidOf names) sharedPGs hfr]
      have hupd : Function.update s.sharedNetpolPortGroups np.namespace_ (some sharedPGs) =
          s.sharedNetpolPortGroups := by
        rw [← hrec]
        exact Function.update_eq_self _ _
      rw [hupd]
      exact hI

theorem denyPGDeletePorts_preserves_I1 (uuidOf : String → String) (np : networkPolicy)
    (pmArg : List (String × String)) (useLocalPods : Bool) (names : List String)
    (ops : List Op) (txnOk : Bool) (s : OvnState)
    (hinj : Function.Injective uuidOf) (hops : opsAvoidDenyPGs ops) (hnd : names.Nodup)
    (hI : I1 uuidOf s)
    (hres : (if useLocalPods then np.localPods else pmArg) = portMapOf uuidOf names)
    (hown : ∀ sharedPGs, s.sharedNetpolPortGroups np.namespace_ = some sharedPGs →
      portsOwnedByPolicy np sharedPGs (portMapOf uuidOf names)) :
    I1 uuidOf (denyPGDeletePorts np pmArg useLocalPods ops txnOk s).state := by
  simp only [denyPGDeletePorts, hres]
  by_cases hpm : portMapOf uuidOf names ≠ []
  · rw [if_pos hpm]
    cases hrec : s.sharedNetpolPortGroups np.namespace_ with
    | none =>
      simp only [hrec]
      by_cases ht : txnOk
      · rw [if_pos ht]
        exact I1_applyOps_other uuidOf s ops hops hI
      · rw [if_neg ht]
        exact hI
    | some sharedPGs =>
      simp only [hrec]
      have hnd' : ((portMapOf uuidOf names).map Prod.fst).Nodup := by
        rw [portMapOf_map_fst]
        exact hnd
      have how := hown sharedPGs hrec
      have howI : np.isIngress → ∀ x ∈ names, np.getKey ∈ sharedPGs.ingressPortToPolicies x := by
        intro hi x hx
        exact (how (x, uuidOf x) (List.mem_map_of_mem _ hx)).1 hi
      have howE : np.isEgress → ∀ x ∈ names, np.getKey ∈ sharedPGs.egressPortToPolicies x := by
        intro he x hx
        exact (how (x, uuidOf x) (List.mem_map_of_mem _ hx)).2 he
      have hingE : (sharedPGs.deletePortsForPolicy np (portMapOf uuidOf names)).1 =
          if np.isIngress then
            (names.filter (fun x =>
              decide ((sharedPGs.ingressPortToPolicies x).erase np.getKey = ∅))).map uuidOf
          else [] := by
        rw [deletePortsForPolicy_ing_emitted _ _ _ hnd']
        by_cases hi : np.isIngress
        · rw [if_pos hi, if_pos hi]
          exact filter_portMapOf uuidOf names
            (fun x => decide ((sharedPGs.ingressPortToPolicies x).erase np.getKey = ∅))
        · rw [if_neg hi, if_neg hi]
      have hegE : (sharedPGs.deletePortsForPolicy np (portMapOf uuidOf names)).2.1 =
          if np.isEgress then
            (names.filter (fun x =>
              decide ((sharedPGs.egressPortToPolicies x).erase np.getKey = ∅))).map uuidOf
          else [] := by
        rw [deletePortsForPolicy_eg_emitted _ _ _ hnd']
        by_cases he : np.isEgress
        · rw [if_pos he, if_pos he]
          exact filter_portMapOf uuidOf names
            (fun x => decide ((sharedPGs.egressPortToPolicies x).erase np.getKey = ∅))
        · rw [if_neg he, if_neg he]
      have hingR : ∀ x,
          (sharedPGs.deletePortsForPolicy np
            (portMapOf uuidOf names)).2.2.ingressPortToPolicies x =
            if np.isIngress ∧ x ∈ names then
              (sharedPGs.ingressPortToPolicies x).erase np.getKey
            else sharedPGs.ingressPortToPolicies x := by
        intro x
        rw [deletePortsForPolicy_ing_refs, portMapOf_map_fst]
      have hegR : ∀ x,
          (sharedPGs.deletePortsForPolicy np
            (portMapOf uuidOf names)).2.2.egressPortToPolicies x =
            if np.isEgress ∧ x ∈ names then
              (sharedPGs.egressPortToPolicies x).erase np.getKey
            else sharedPGs.egressPortToPolicies x := by
        intro x
        rw [deletePortsForPolicy_eg_refs, portMapOf_map_fst]
      by_cases ht : txnOk
      · rw [if_pos ht]
        intro ns n
        dsimp only
        have hdbI : applyOps s.db
            (if (sharedPGs.deletePortsForPolicy np (portMapOf uuidOf names)).1 ≠ [] ∨
                (sharedPGs.deletePortsForPolicy np (portMapOf uuidOf names)).2.1 ≠ [] then
              ops ++ [Op.delPorts (defaultDenyPortGroupName np.namespace_ ingressDefaultDenySuffix)
                        (sharedPGs.deletePortsForPolicy np (portMapOf uuidOf names)).1,
                      Op.delPorts (defaultDenyPortGroupName np.namespace_ egressDefaultDenySuffix)
                        (sharedPGs.deletePortsForPolicy np (portMapOf uuidOf names)).2.1]
            else ops) (defaultDenyPortGroupName ns ingressDefaultDenySuffix) =
            if ns = np.namespace_ then
              s.db (defaultDenyPortGroupName ns ingressDefaultDenySuffix) \
                (sharedPGs.deletePortsForPolicy np (portMapOf uuidOf names)).1.toFinset
            else s.db (defaultDenyPortGroupName ns ingressDefaultDenySuffix) := by
          by_cases hne : (sharedPGs.deletePortsForPolicy np (portMapOf uuidOf names)).1 ≠ [] ∨
              (sharedPGs.deletePortsForPolicy np (portMapOf uuidOf names)).2.1 ≠ []
          · rw [if_pos hne]
            exact applyOps_delDeny_at_ing s.db ops hops np.namespace_ ns _ _
          · rw [if_neg hne]
            push_neg at hne
            rw [applyOps_other_pg _ _ _ (fun op hop => (hops op hop ns).1), hne.1]
            simp
        have hdbE : applyOps s.db
            (if (sharedPGs.deletePortsForPolicy np (portMapOf uuidOf names)).1 ≠ [] ∨
                (sharedPGs.deletePortsForPolicy np (portMapOf uuidOf names)).2.1 ≠ [] then
              ops ++ [Op.delPorts (defaultDenyPortGroupName np.namespace_ ingressDefaultDenySuffix)
                        (sharedPGs.deletePortsForPolicy np (portMapOf uuidOf names)).1,
                      Op.delPorts (defaultDenyPortGroupName np.namespace_ egressDefaultDenySuffix)
                        (sharedPGs.deletePortsForPolicy np (portMapOf uuidOf names)).2.1]
            else ops) (defaultDenyPortGroupName ns egressDefaultDenySuffix) =
            if ns = np.namespace_ then
              s.db (defaultDenyPortGroupName ns egressDefaultDenySuffix) \
                (sharedPGs.deletePortsForPolicy np (portMapOf uuidOf names)).2.1.toFinset
            else s.db (defaultDenyPortGroupName ns egressDefaultDenySuffix) := by
          by_cases hne : (sharedPGs.deletePortsForPolicy np (portMapOf uuidOf names)).1 ≠ [] ∨
              (sharedPGs.deletePortsForPolicy np (portMapOf uuidOf names)).2.1 ≠ []
          · rw [if_pos hne]
            exact applyOps_delDeny_at_eg s.db ops hops np.namespace_ ns _ _
          · rw [if_neg hne]
            push_neg at hne
            rw [applyOps_other_pg _ _ _ (fun op hop => (hops op hop ns).2), hne.2]
            simp
        rw [hdbI, hdbE, Function.update_apply]
        by_cases hns : ns = np.namespace_
        · rw [if_pos hns, if_pos hns, if_pos hns]
          have hrec2 : s.sharedNetpolPortGroups ns = some sharedPGs := by
            rw [hns]
            exact hrec
          constructor
          · have hbase : uuidOf n ∈ s.db (defaultDenyPortGroupName ns ingressDefaultDenySuffix) ↔
                sharedPGs.ingressPortToPolicies n ≠ ∅ := by
              have h0 := (hI ns n).1
              rwa [hrec2] at h0
            rw [hingE]
            show _ ↔ (sharedPGs.deletePortsForPolicy np
              (portMapOf uuidOf names)).2.2.ingressPortToPolicies n ≠ ∅
            rw [hingR n]
            exact del_dir_iff uuidOf hinj _ _ np.getKey names np.isIngress n hbase howI
          · have hbase : uuidOf n ∈ s.db (defaultDenyPortGroupName ns egressDefaultDenySuffix) ↔
                sharedPGs.egressPortToPolicies n ≠ ∅ := by
              have h0 := (hI ns n).2
              rwa [hrec2] at h0
            rw [hegE]
            show _ ↔ (sharedPGs.deletePortsForPolicy np
              (portMapOf uuidOf names)).2.2.egressPortToPolicies n ≠ ∅
            rw [hegR n]
            exact del_dir_iff uuidOf hinj _ _ np.getKey names np.isEgress n hbase howE
        · rw [if_neg hns, if_neg hns, if_neg hns]
          exact hI ns n
      · rw [if_neg ht]
        dsimp only
        rw [deletePorts_then_addPorts_record np (portMapOf uuidOf names) sharedPGs how]
        have hupd : Function.update s.sharedNetpolPortGroups np.namespace_ (some sharedPGs) =
            s.sharedNetpolPortGroups := by
          rw [← hrec]
          exact Function.update_eq_self _ _
        rw [hupd]
        exact hI
  · rw [if_neg hpm]
    by_cases ht : txnOk
    · rw [if_pos ht]
      exact I1_applyOps_other uuidOf s ops hops hI
    · rw [if_neg ht]
      exact hI

end OvnNetpol

namespace OvnNetpol

theorem deletePortsForPolicy_nil (np : networkPolicy) (sharedPGs : defaultDenyPortGroups) :
    (sharedPGs.deletePortsForPolicy np []).2.2 = sharedPGs := by
  apply ddpg_ext <;>
    by_cases hi : np.isIngress <;> by_cases he : np.isEgress <;>
      simp [defaultDenyPortGroups.deletePortsForPolicy, deletePortsDir, hi, he]

/-- C1: for every namespace and direction, after any successful or failed run
of `denyPGAddPorts` or `denyPGDeletePorts`, a port UUID is a member of that
namespace's default-deny port group in the database iff the corresponding
in-memory map entry (`ingressPortToPolicies` resp. `egressPortToPolicies`) for
that port name is non-empty: invariant `I1` is preserved by both operations,
the only writers of default-deny port-group membership (caller-supplied
operations avoid the deny port groups), whether the transaction commits or
fails, for well-formed inputs — duplicate-free port names mapped by the
logical-port cache correspondence, added ports not yet referencing the policy,
deleted ports owned by the policy. -/
theorem claim_C1_denyPG_ops_preserve_I1 (uuidOf : String → String) (np : networkPolicy)
    (namesA namesD : List String) (pmArg : List (String × String)) (useLocalPods : Bool)
    (ops : List Op) (txnOk : Bool) (s : OvnState)
    (hinj : Function.Injective uuidOf) (hops : opsAvoidDenyPGs ops) (hI : I1 uuidOf s)
    (hndA : namesA.Nodup)
    (hfresh : ∀ sharedPGs, s.sharedNetpolPortGroups np.namespace_ = some sharedPGs →
      portsFreshForPolicy np sharedPGs (portMapOf uuidOf namesA))
    (hndD : namesD.Nodup)
    (hres : (if useLocalPods then np.localPods else pmArg) = portMapOf uuidOf namesD)
    (hown : ∀ sharedPGs, s.sharedNetpolPortGroups np.namespace_ = some sharedPGs →
      portsOwnedByPolicy np sharedPGs (portMapOf uuidOf namesD)) :
    I1 uuidOf (denyPGAddPorts np (portMapOf uuidOf namesA) ops txnOk s).state ∧
    I1 uuidOf (denyPGDeletePorts np pmArg useLocalPods ops txnOk s).state :=
  ⟨denyPGAddPorts_preserves_I1 uuidOf np namesA ops txnOk s hinj hops hndA hI hfresh,
   denyPGDeletePorts_preserves_I1 uuidOf np pmArg useLocalPods namesD ops txnOk s
     hinj hops hndD hI hres hown⟩

theorem claim_C1_witness :
    (["portA"] : List String).Nodup ∧
    I1 id (denyPGAddPorts np1 (portMapOf id ["portA"]) [] true ovnState1).state ∧
    I1 id (denyPGDeletePorts np1 [] false [] true ovnState1).state := by
  have h := claim_C1_denyPG_ops_preserve_I1 id np1 ["portA"] [] [] false [] true ovnState1
    (fun a b hab => hab)
    (fun op hop => absurd hop (List.not_mem_nil op))
    (by
      intro ns n
      by_cases h : ns = "ns1" <;>
        simp [ovnState1, Function.update_apply, h, ingressRefsOf, egressRefsOf, emptyDenyPG])
    (by decide)
    (by
      intro sharedPGs h
      simp only [ovnState1, np1, Function.update_same, Option.some.injEq] at h
      subst h
      intro p hp
      simp [emptyDenyPG])
    (by decide)
    rfl
    (by
      intro sharedPGs h p hp
      simp [portMapOf] at hp)
  exact ⟨by decide, h.1, h.2⟩

/-- C3: for a policy and a port map none of whose ports currently holds the
policy's key in the shared record, `addPortsForPolicy` followed by
`deletePortsForPolicy` restores the record (both reference maps and the
policies set) to its initial value, and the freed ingress/egress port lists of
the delete equal the new ingress/egress port lists of the add. -/
theorem claim_C3_add_then_delete_roundtrip (np : networkPolicy)
    (m : List (String × String)) (sharedPGs : defaultDenyPortGroups)
    (hnd : (m.map Prod.fst).Nodup) (hfresh : portsFreshForPolicy np sharedPGs m) :
    ((sharedPGs.addPortsForPolicy np m).2.2.deletePortsForPolicy np m).2.2 = sharedPGs ∧
    ((sharedPGs.addPortsForPolicy np m).2.2.deletePortsForPolicy np m).1 =
      (sharedPGs.addPortsForPolicy np m).1 ∧
    ((sharedPGs.addPortsForPolicy np m).2.2.deletePortsForPolicy np m).2.1 =
      (sharedPGs.addPortsForPolicy np m).2.1 :=
  ⟨addPorts_then_deletePorts_record np m sharedPGs hfresh,
   delete_after_add_ing_emitted np m sharedPGs hnd hfresh,
   delete_after_add_eg_emitted np m sharedPGs hnd hfresh⟩

theorem claim_C3_witness :
    ((([("portA", "uuidA")] : List (String × String)).map Prod.fst).Nodup) ∧
    ((emptyDenyPG.addPortsForPolicy np1 [("portA", "uuidA")]).2.2.deletePortsForPolicy np1
      [("portA", "uuidA")]).2.2 = emptyDenyPG := by
  refine ⟨by decide, ?_⟩
  exact (claim_C3_add_then_delete_roundtrip np1 [("portA", "uuidA")] emptyDenyPG
    (by decide)
    (by
      intro p hp
      simp [emptyDenyPG])).1

/-- C4: if the transaction submitted by `denyPGAddPorts` (resp.
`denyPGDeletePorts`) fails, the deferred inverse call restores the shared
default-deny reference maps (the whole state) to their values from before the
call and the function returns an error; on success the updated counters are
kept in the store. -/
theorem claim_C4_txn_failure_rollback (np : networkPolicy)
    (m pmArg : List (String × String)) (useLocalPods : Bool) (ops : List Op)
    (s : OvnState) (sharedPGs : defaultDenyPortGroups)
    (hrec : s.sharedNetpolPortGroups np.namespace_ = some sharedPGs)
    (hfresh : portsFreshForPolicy np sharedPGs m)
    (hown : portsOwnedByPolicy np sharedPGs (if useLocalPods then np.localPods else pmArg)) :
    ((denyPGAddPorts np m ops false s).state = s ∧
      (denyPGAddPorts np m ops false s).err.isSome = true) ∧
    ((denyPGDeletePorts np pmArg useLocalPods ops false s).state = s ∧
      (denyPGDeletePorts np pmArg useLocalPods ops false s).err.isSome = true) ∧
    (denyPGAddPorts np m ops true s).state.sharedNetpolPortGroups np.namespace_ =
      some (sharedPGs.addPortsForPolicy np m).2.2 ∧
    (denyPGDeletePorts np pmArg useLocalPods ops true s).state.sharedNetpolPortGroups
        np.namespace_ =
      some (sharedPGs.deletePortsForPolicy np
        (if useLocalPods then np.localPods else pmArg)).2.2 := by
  have hupd : Function.update s.sharedNetpolPortGroups np.namespace_ (some sharedPGs) =
      s.sharedNetpolPortGroups := by
    rw [← hrec]
    exact Function.update_eq_self _ _
  refine ⟨⟨?_, ?_⟩, ⟨?_, ?_⟩, ?_, ?_⟩
  · simp only [denyPGAddPorts, hrec]
    rw [if_neg Bool.false_ne_true]
    dsimp only
    rw [addPorts_then_deletePorts_record np m sharedPGs hfresh, hupd]
  · simp only [denyPGAddPorts, hrec]
    rw [if_neg Bool.false_ne_true]
    rfl
  · simp only [denyPGDeletePorts]
    by_cases hpm : (if useLocalPods then np.localPods else pmArg) ≠ []
    · rw [if_pos hpm]
      simp only [hrec]
      rw [if_neg Bool.false_ne_true]
      dsimp only
      rw [deletePorts_then_addPorts_record np _ sharedPGs hown, hupd]
    · rw [if_neg hpm, if_neg Bool.false_ne_true]
  · simp only [denyPGDeletePorts]
    by_cases hpm : (if useLocalPods then np.localPods else pmArg) ≠ []
    · rw [if_pos hpm]
      simp only [hrec]
      rw [if_neg Bool.false_ne_true]
      rfl
    · rw [if_neg hpm, if_neg Bool.false_ne_true]
      rfl
  · simp only [denyPGAddPorts, hrec]
    rw [if_pos trivial]
    dsimp only
    rw [Function.update_same]
  · simp only [denyPGDeletePorts]
    by_cases hpm : (if useLocalPods then np.localPods else pmArg) ≠ []
    · rw [if_pos hpm]
      simp only [hrec]
      rw [if_pos trivial]
      dsimp only
      rw [Function.update_same]
    · rw [if_neg hpm, if_pos trivial]
      dsimp only
      push_neg at hpm
      rw [hpm, deletePortsForPolicy_nil, hrec]

theorem claim_C4_witness :
    portsFreshForPolicy np1 emptyDenyPG [("portA", "uuidA")] ∧
    (denyPGAddPorts np1 [("portA", "uuidA")] [] false ovnState1).state = ovnState1 ∧
    (denyPGAddPorts np1 [("portA", "uuidA")] [] false ovnState1).err.isSome = true := by
  have hfresh : portsFreshForPolicy np1 emptyDenyPG [("portA", "uuidA")] := by
    intro p hp
    simp [emptyDenyPG]
  have h := claim_C4_txn_failure_rollback np1 [("portA", "uuidA")] [] false []
    ovnState1 emptyDenyPG
    (by simp [ovnState1, np1, Function.update_same])
    hfresh
    (by
      intro p hp
      simp at hp)
  exact ⟨hfresh, h.1.1, h.1.2⟩

/-- C7: when a policy joins a namespace whose shared default-deny record does
not yet exist and the database creation of the port groups and ACLs fails,
`addPolicyToDefaultPortGroups` removes the freshly stored record and returns an
error, leaving the state unchanged: no record for the namespace and the policy
key not registered. -/
theorem claim_C7_create_failure_unregisters (np : networkPolicy) (s : LifecycleState)
    (habs : s.sharedNetpolPortGroups np.namespace_ = none) :
    (addPolicyToDefaultPortGroups np false s).1 = s ∧
    (addPolicyToDefaultPortGroups np false s).2.isSome = true ∧
    (addPolicyToDefaultPortGroups np false s).1.sharedNetpolPortGroups np.namespace_ =
      none := by
  refine ⟨?_, ?_, ?_⟩
  · simp only [addPolicyToDefaultPortGroups, habs]
    rw [if_neg Bool.false_ne_true]
  · simp only [addPolicyToDefaultPortGroups, habs]
    rw [if_neg Bool.false_ne_true]
    rfl
  · simp only [addPolicyToDefaultPortGroups, habs]
    rw [if_neg Bool.false_ne_true]
    exact habs

theorem claim_C7_witness :
    emptyLifecycleState.sharedNetpolPortGroups np1.namespace_ = none ∧
    (addPolicyToDefaultPortGroups np1 false emptyLifecycleState).1 = emptyLifecycleState ∧
    (addPolicyToDefaultPortGroups np1 false emptyLifecycleState).2.isSome = true := by
  have h := claim_C7_create_failure_unregisters np1 emptyLifecycleState rfl
  exact ⟨rfl, h.1, h.2.1⟩

/-- C10: for a non-empty port map, `denyPGDeletePorts` does not fail when the
shared record for the namespace is absent: the store is left unchanged, the
caller's pending operations are still submitted in a transaction (the database
reflects them exactly when the transaction commits) and nil is returned unless
the transaction fails — whereas `denyPGAddPorts` returns an error and submits
nothing when the record is absent. -/
theorem claim_C10_delete_tolerates_missing_record (np : networkPolicy)
    (pmArg : List (String × String)) (useLocalPods : Bool) (ops : List Op)
    (txnOk : Bool) (s : OvnState)
    (habs : s.sharedNetpolPortGroups np.namespace_ = none)
    (hne : (if useLocalPods then np.localPods else pmArg) ≠ []) :
    (denyPGDeletePorts np pmArg useLocalPods ops txnOk s).state.sharedNetpolPortGroups =
      s.sharedNetpolPortGroups ∧
    (denyPGDeletePorts np pmArg useLocalPods ops txnOk s).submitted = some ops ∧
    (denyPGDeletePorts np pmArg useLocalPods ops txnOk s).state.db =
      (if txnOk then applyOps s.db ops else s.db) ∧
    ((denyPGDeletePorts np pmArg useLocalPods ops txnOk s).err = none ↔ txnOk = true) ∧
    (denyPGAddPorts np pmArg ops txnOk s).err.isSome = true ∧
    (denyPGAddPorts np pmArg ops txnOk s).submitted = none := by
  simp only [denyPGDeletePorts, denyPGAddPorts, habs]
  rw [if_pos hne]
  by_cases ht : txnOk
  · subst ht
    simp
  · simp only [if_neg ht]
    simp [ht]

theorem claim_C10_witness :
    emptyOvnState.sharedNetpolPortGroups np1.namespace_ = none ∧
    (if false then np1.localPods else [("portA", "uuidA")]) ≠ [] ∧
    (denyPGDeletePorts np1 [("portA", "uuidA")] false [] true emptyOvnState).err = none := by
  have h := claim_C10_delete_tolerates_missing_record np1 [("portA", "uuidA")] false []
    true emptyOvnState rfl (by decide)
  exact ⟨rfl, by decide, (h.2.2.2.1).mpr rfl⟩

end OvnNetpol

namespace OvnNetpol

theorem pgExists_update2_at (pg : String → Bool) (ns0 : String) (b : Bool) (ns : String) :
    (Function.update (Function.update pg
        (defaultDenyPortGroupName ns0 ingressDefaultDenySuffix) b)
        (defaultDenyPortGroupName ns0 egressDefaultDenySuffix) b)
      (defaultDenyPortGroupName ns ingressDefaultDenySuffix) =
      (if ns = ns0 then b else pg (defaultDenyPortGroupName ns ingressDefaultDenySuffix)) ∧
    (Function.update (Function.update pg
        (defaultDenyPortGroupName ns0 ingressDefaultDenySuffix) b)
        (defaultDenyPortGroupName ns0 egressDefaultDenySuffix) b)
      (defaultDenyPortGroupName ns egressDefaultDenySuffix) =
      (if ns = ns0 then b else pg (defaultDenyPortGroupName ns egressDefaultDenySuffix)) := by
  constructor
  · rw [Function.update_apply, if_neg (denyPGName_ingress_ne_egress ns ns0),
      Function.update_apply]
    by_cases h : ns = ns0
    · rw [if_pos (by rw [h]), if_pos h]
    · rw [if_neg (fun he => h (denyPGName_inj _ _ _ he)), if_neg h]
  · rw [Function.update_apply]
    by_cases h : ns = ns0
    · rw [if_pos (by rw [h]), if_pos h]
    · rw [if_neg (fun he => h (denyPGName_inj _ _ _ he)),
        Function.update_apply, if_neg (denyPGName_egress_ne_ingress ns ns0), if_neg h]

/-- C2 (amended): the shared default-deny record for a namespace (and its two
database port groups) exists iff at least one policy has joined via
`addPolicyToDefaultPortGroups` and not yet left via
`delPolicyFromDefaultPortGroups`, and its `policies` set equals exactly the
joined keys — provided the port-group deletion transaction of every leave
succeeds (invariant `I2` is preserved by any join, successful or failed, and by
any leave whose deletion succeeds).  A leave whose deletion transaction fails
removes the key but leaves the record and port groups behind; see the
counterexample. -/
theorem claim_C2_amended_lifecycle_invariant (s : LifecycleState)
    (joined : String → Finset String) (e : DDEvent)
    (hI : I2 s joined) (hgood : leaveDeleteSucceeds e) :
    I2 (ddStep s e) (joinedStep s joined e) := by
  cases e with
  | join np createOk =>
    cases hrec : s.sharedNetpolPortGroups np.namespace_ with
    | some sharedPGs =>
      have h0 := hI np.namespace_
      simp only [hrec, policiesOf] at h0
      obtain ⟨_, hpol, hpgi, hpge⟩ := h0
      have hstate : ddStep s (.join np createOk) =
          { s with sharedNetpolPortGroups :=
              (Function.update s.sharedNetpolPortGroups np.namespace_
                (some { sharedPGs with policies := insert np.getKey sharedPGs.policies })) } := by
        simp only [ddStep, addPolicyToDefaultPortGroups, hrec]
      have hghost : joinedStep s joined (.join np createOk) =
          Function.update joined np.namespace_ (insert np.getKey (joined np.namespace_)) := by
        simp only [joinedStep, hrec]
        simp
      rw [hstate, hghost]
      intro ns
      dsimp only
      by_cases hns : ns = np.namespace_
      · subst hns
        simp only [Function.update_same, policiesOf]
        refine ⟨?_, ?_, ?_, ?_⟩
        · simp [Finset.insert_ne_empty]
        · rw [hpol]
        · simp [hpgi, hrec]
        · simp [hpge, hrec]
      · simp only [Function.update_noteq hns]
        exact hI ns
    | none =>
      by_cases hok : createOk
      · have h0 := hI np.namespace_
        simp only [hrec, policiesOf] at h0
        obtain ⟨_, hj, hpgi, hpge⟩ := h0
        have hstate : ddStep s (.join np createOk) =
            { sharedNetpolPortGroups :=
                (Function.update s.sharedNetpolPortGroups np.namespace_
                  (some { emptyDenyPG with policies := insert np.getKey emptyDenyPG.policies }))
              pgExists :=
                (Function.update (Function.update s.pgExists
                  (defaultDenyPortGroupName np.namespace_ ingressDefaultDenySuffix) true)
                  (defaultDenyPortGroupName np.namespace_ egressDefaultDenySuffix) true) } := by
          simp only [ddStep, addPolicyToDefaultPortGroups, hrec]
          rw [if_pos hok]
        have hghost : joinedStep s joined (.join np createOk) =
            Function.update joined np.namespace_ (insert np.getKey (joined np.namespace_)) := by
          simp only [joinedStep, hrec]
          simp [hok]
        rw [hstate, hghost]
        intro ns
        dsimp only
        have hp1 := (pgExists_update2_at s.pgExists np.namespace_ true ns).1
        have hp2 := (pgExists_update2_at s.pgExists np.namespace_ true ns).2
        by_cases hns : ns = np.namespace_
        · subst hns
          rw [if_pos rfl] at hp1 hp2
          simp only [Function.update_same, policiesOf]
          refine ⟨?_, ?_, ?_, ?_⟩
          · simp [Finset.insert_ne_empty]
          · rw [← hj]
            rfl
          · simp [hp1]
          · simp [hp2]
        · rw [if_neg hns] at hp1 hp2
          simp only [Function.update_noteq hns, hp1, hp2]
          exact hI ns
      · have hstate : ddStep s (.join np createOk) = s := by
          simp only [ddStep, addPolicyToDefaultPortGroups, hrec]
          rw [if_neg hok]
        have hghost : joinedStep s joined (.join np createOk) = joined := by
          simp only [joinedStep, hrec]
          rw [if_neg (fun h => h.elim (fun h1 => by simp at h1) hok)]
        rw [hstate, hghost]
        exact hI
  | leave np deleteOk =>
    have hgood2 : deleteOk = true := hgood
    subst hgood2
    cases hrec : s.sharedNetpolPortGroups np.namespace_ with
    | none =>
      have hstate : ddStep s (.leave np true) = s := by
        simp only [ddStep, delPolicyFromDefaultPortGroups, hrec]
      have hghost : joinedStep s joined (.leave np true) = joined := by
        simp only [joinedStep, hrec]
        rw [if_neg (by simp)]
      rw [hstate, hghost]
      exact hI
    | some sharedPGs =>
      have hghost : joinedStep s joined (.leave np true) =
          Function.update joined np.namespace_ ((joined np.namespace_).erase np.getKey) := by
        simp only [joinedStep, hrec]
        simp
      have h0 := hI np.namespace_
      simp only [hrec, policiesOf] at h0
      obtain ⟨_, hpol, hpgi, hpge⟩ := h0
      by_cases hrem : sharedPGs.policies.erase np.getKey = ∅
      · have hje : (joined np.namespace_).erase np.getKey = ∅ := by
          rw [← hpol]
          exact hrem
        have hstate : ddStep s (.leave np true) =
            { sharedNetpolPortGroups :=
                (Function.update s.sharedNetpolPortGroups np.namespace_ none)
              pgExists :=
                (Function.update (Function.update s.pgExists
                  (defaultDenyPortGroupName np.namespace_ ingressDefaultDenySuffix) false)
                  (defaultDenyPortGroupName np.namespace_ egressDefaultDenySuffix) false) } := by
          simp only [ddStep, delPolicyFromDefaultPortGroups, hrec]
          rw [if_pos hrem, if_pos trivial]
        rw [hstate, hghost]
        intro ns
        dsimp only
        have hp1 := (pgExists_update2_at s.pgExists np.namespace_ false ns).1
        have hp2 := (pgExists_update2_at s.pgExists np.namespace_ false ns).2
        by_cases hns : ns = np.namespace_
        · subst hns
          rw [if_pos rfl] at hp1 hp2
          simp only [Function.update_same, policiesOf]
          refine ⟨?_, ?_, ?_, ?_⟩
          · simp [hje]
          · rw [hje]
          · simp [hp1]
          · simp [hp2]
        · rw [if_neg hns] at hp1 hp2
          simp only [Function.update_noteq hns, hp1, hp2]
          exact hI ns
      · have hje : (joined np.namespace_).erase np.getKey ≠ ∅ := by
          rw [← hpol]
          exact hrem
        have hstate : ddStep s (.leave np true) =
            { s with sharedNetpolPortGroups :=
                (Function.update s.sharedNetpolPortGroups np.namespace_
                  (some { sharedPGs with
                    policies := sharedPGs.policies.erase np.getKey })) } := by
          simp only [ddStep, delPolicyFromDefaultPortGroups, hrec]
          rw [if_neg hrem]
        rw [hstate, hghost]
        intro ns
        dsimp only
        by_cases hns : ns = np.namespace_
        · subst hns
          simp only [Function.update_same, policiesOf]
          refine ⟨?_, ?_, ?_, ?_⟩
          · simp [hje]
          · rw [hpol]
          · simp [hpgi, hrec]
          · simp [hpge, hrec]
        · simp only [Function.update_noteq hns]
          exact hI ns

theorem claim_C2_witness :
    I2 emptyLifecycleState (fun _ => ∅) ∧
    I2 (ddStep emptyLifecycleState (DDEvent.join np1 true))
      (joinedStep emptyLifecycleState (fun _ => ∅) (DDEvent.join np1 true)) := by
  have hI : I2 emptyLifecycleState (fun _ => ∅) := by
    intro ns
    simp [emptyLifecycleState, policiesOf]
  exact ⟨hI, claim_C2_amended_lifecycle_invariant emptyLifecycleState (fun _ => ∅)
    (DDEvent.join np1 true) hI trivial⟩

/-- C2 counterexample: one policy joins namespace ns1 (record and port groups
created), then leaves while the port-group deletion transaction fails.  The
policy's key has been removed from the in-memory `policies` set before the
deletion was attempted, so afterwards the shared record still exists with an
empty `policies` set and both port groups still exist — the record exists while
no policy of the namespace has joined and not left, and `policies` is not the
set of joined keys, refuting the claimed iff for failed leaves. -/
theorem claim_C2_counterexample :
    ((runDD emptyLifecycleState [DDEvent.join np1 true, DDEvent.leave np1 false]
      ).sharedNetpolPortGroups "ns1").isSome = true ∧
    policiesOf ((runDD emptyLifecycleState [DDEvent.join np1 true, DDEvent.leave np1 false]
      ).sharedNetpolPortGroups "ns1") = ∅ ∧
    (runDD emptyLifecycleState [DDEvent.join np1 true, DDEvent.leave np1 false]).pgExists
      (defaultDenyPortGroupName "ns1" ingressDefaultDenySuffix) = true := by
  refine ⟨?_, ?_, ?_⟩ <;> decide

end OvnNetpol

namespace OvnNetpol

/-- C5: every event handler on a network policy — local-pod add, local-pod
delete, peer-namespace add, peer-namespace delete, and the per-policy ACL
log-level update — that takes the policy read-lock and observes
`deleted = true` returns nil immediately, submits no database operations, and
mutates neither the policy object nor the gress policy nor the shared state. -/
theorem claim_C5_handlers_noop_when_deleted (np : networkPolicy) (gp : gressPolicy)
    (pods : List Pod) (nsObjs : List String) (portGroupHasPorts txnOk updateOk : Bool)
    (s : OvnState) (hdel : np.deleted = true) :
    handleLocalPodSelectorAddFunc np pods portGroupHasPorts txnOk s =
      { np := np, state := s, err := none, submitted := none } ∧
    handleLocalPodSelectorDelFunc np pods txnOk s =
      { np := np, state := s, err := none, submitted := none } ∧
    handlePeerNamespaceSelectorAdd np gp nsObjs txnOk =
      { np := np, gp := gp, err := none, submitted := none } ∧
    handlePeerNamespaceSelectorDel np gp nsObjs txnOk =
      { np := np, gp := gp, err := none, submitted := none } ∧
    updateACLLoggingForPolicy np updateOk =
      { err := none, updatedPredicateKey := none } := by
  refine ⟨?_, ?_, ?_, ?_, ?_⟩ <;>
    simp [handleLocalPodSelectorAddFunc, handleLocalPodSelectorDelFunc,
      handlePeerNamespaceSelectorAdd, handlePeerNamespaceSelectorDel,
      updateACLLoggingForPolicy, hdel]

theorem claim_C5_witness :
    np1del.deleted = true ∧
    updateACLLoggingForPolicy np1del true =
      { err := none, updatedPredicateKey := none } := by
  have h := claim_C5_handlers_noop_when_deleted np1del ⟨∅⟩ [] [] true true true
    emptyOvnState rfl
  exact ⟨rfl, h.2.2.2.2⟩

/-! The peer-address-set release loop. -/

theorem releasePeer_fst (releaseOk : String → Bool) (keys : List String) :
    (releasePeerAddressSets releaseOk keys).1 =
      keys.drop (keys.findIdx (fun k => !releaseOk k)) := by
  induction keys with
  | nil => rfl
  | cons k rest ih =>
    by_cases h : releaseOk k
    · simp [releasePeerAddressSets, h, List.findIdx_cons, ih]
    · simp [releasePeerAddressSets, h, List.findIdx_cons]

theorem releasePeer_err_isSome (releaseOk : String → Bool) (keys : List String) :
    (releasePeerAddressSets releaseOk keys).2.isSome = true ↔
      ∃ k ∈ keys, releaseOk k = false := by
  induction keys with
  | nil => simp [releasePeerAddressSets]
  | cons k rest ih =>
    by_cases h : releaseOk k
    · simp only [releasePeerAddressSets, if_pos h]
      rw [ih]
      constructor
      · rintro ⟨k2, hmem, hk2⟩
        exact ⟨k2, List.mem_cons_of_mem _ hmem, hk2⟩
      · rintro ⟨k2, hmem, hk2⟩
        rcases List.mem_cons.mp hmem with rfl | hmem2
        · rw [h] at hk2
          exact absurd hk2 (by simp)
        · exact ⟨k2, hmem2, hk2⟩
    · simp only [releasePeerAddressSets, if_neg h]
      constructor
      · intro _
        exact ⟨k, List.mem_cons_self _ _, Bool.eq_false_iff.mpr h⟩
      · intro _
        rfl

theorem releasePeer_none_fst (releaseOk : String → Bool) (keys : List String)
    (h : (releasePeerAddressSets releaseOk keys).2 = none) :
    (releasePeerAddressSets releaseOk keys).1 = [] := by
  induction keys with
  | nil => rfl
  | cons k rest ih =>
    by_cases hk : releaseOk k
    · simp only [releasePeerAddressSets, if_pos hk] at h ⊢
      exact ih h
    · simp only [releasePeerAddressSets, if_neg hk] at h
      exact Option.noConfusion h

theorem cleanup_peerAddressSets_eq (o : CleanupOracles) (np : networkPolicy) :
    (cleanupNetworkPolicy o np).1.peerAddressSets =
      (releasePeerAddressSets o.releaseOk np.peerAddressSets).1 ∧
    ((releasePeerAddressSets o.releaseOk np.peerAddressSets).2.isSome = true →
      (cleanupNetworkPolicy o np).2.isSome = true) := by
  cases hrel : (releasePeerAddressSets o.releaseOk np.peerAddressSets).2 with
  | some e =>
    constructor
    · simp [cleanupNetworkPolicy, hrel]
    · intro _
      simp [cleanupNetworkPolicy, hrel]
  | none =>
    have hfst : (releasePeerAddressSets o.releaseOk np.peerAddressSets).1 = [] :=
      releasePeer_none_fst _ _ hrel
    constructor
    · rw [hfst]
      by_cases h1 : o.portGroupOpsOk <;> by_cases h2 : o.denyPGDeleteOk <;>
        by_cases h3 : o.delDefaultPGOk <;>
          simp [cleanupNetworkPolicy, hrel, h1, h2, h3]
    · intro habs
      exact absurd habs (by simp)

/-- C8: during `cleanupNetworkPolicy` the peer-address-set keys are released in
order from index 0; the resulting `peerAddressSets` is precisely the suffix of
the original list starting at the first failing index — the failed key and all
later keys are retained for retry, and the whole list is cleared when every
release succeeds — so the list is always a suffix of the original (it only
shrinks), and a release failure makes cleanup return an error. -/
theorem claim_C8_cleanup_release_suffix (o : CleanupOracles) (np : networkPolicy) :
    (cleanupNetworkPolicy o np).1.peerAddressSets =
      np.peerAddressSets.drop (np.peerAddressSets.findIdx (fun k => !o.releaseOk k)) ∧
    List.IsSuffix (cleanupNetworkPolicy o np).1.peerAddressSets np.peerAddressSets ∧
    ((∃ k ∈ np.peerAddressSets, o.releaseOk k = false) →
      (cleanupNetworkPolicy o np).2.isSome = true) := by
  have h1 := (cleanup_peerAddressSets_eq o np).1
  have h2 := (cleanup_peerAddressSets_eq o np).2
  refine ⟨?_, ?_, ?_⟩
  · rw [h1, releasePeer_fst]
  · rw [h1, releasePeer_fst]
    exact List.drop_suffix _ _
  · intro hex
    exact h2 ((releasePeer_err_isSome _ _).mpr hex)

theorem claim_C8_witness :
    (∃ k ∈ np1as.peerAddressSets, oFailRelease.releaseOk k = false) ∧
    (cleanupNetworkPolicy oFailRelease np1as).2.isSome = true ∧
    (cleanupNetworkPolicy oFailRelease np1as).1.peerAddressSets = ["as1", "as2"] := by
  have h := claim_C8_cleanup_release_suffix oFailRelease np1as
  refine ⟨by decide, h.2.2 (by decide), ?_⟩
  rw [h.1]
  decide

/-- C9 (amended): `getNewLocalPolicyPorts` skips pods already in `localPods`,
unscheduled pods, and pods not expected in the logical-port cache; it returns
as retryable error objects exactly those remaining pods whose logical-port
cache lookup fails or whose cached port is marked pending deletion; every
other pod yields its cached (port name, port UUID) pair, the UUID list being
the second projections of the pair list. -/
theorem claim_C9_amended_new_local_ports (np : networkPolicy) (pods : List Pod) :
    (getNewLocalPolicyPorts np pods).2.2 =
      pods.filter (fun pod =>
        !(np.localPods.lookup (getLogicalPortName pod.namespace_ pod.name)).isSome &&
        !(pod.nodeName == "") &&
        pod.expectedInLogicalCache &&
        (match pod.cacheEntry with
         | none => true
         | some portInfo => !portInfo.expiresIsZero)) ∧
    (getNewLocalPolicyPorts np pods).1 =
      pods.filterMap (fun pod =>
        if (np.localPods.lookup (getLogicalPortName pod.namespace_ pod.name)).isSome then
          none
        else if pod.nodeName = "" then none
        else if ¬ pod.expectedInLogicalCache then none
        else
          match pod.cacheEntry with
          | none => none
          | some portInfo =>
            if ¬ portInfo.expiresIsZero then none
            else some (portInfo.name, portInfo.uuid)) ∧
    (getNewLocalPolicyPorts np pods).2.1 =
      ((getNewLocalPolicyPorts np pods).1).map Prod.snd := by
  induction pods with
  | nil => exact ⟨rfl, rfl, rfl⟩
  | cons pod rest ih =>
    obtain ⟨ih1, ih2, ih3⟩ := ih
    cases hl : np.localPods.lookup (getLogicalPortName pod.namespace_ pod.name) with
    | some existing =>
      refine ⟨?_, ?_, ?_⟩ <;>
        simp [getNewLocalPolicyPorts, List.filter_cons, List.filterMap_cons, hl,
          ih1, ih2, ih3]
    | none =>
      by_cases hn : pod.nodeName = ""
      · refine ⟨?_, ?_, ?_⟩ <;>
          simp [getNewLocalPolicyPorts, List.filter_cons, List.filterMap_cons, hl, hn,
            ih1, ih2, ih3]
      · by_cases he : pod.expectedInLogicalCache
        · cases hc : pod.cacheEntry with
          | none =>
            refine ⟨?_, ?_, ?_⟩ <;>
              simp [getNewLocalPolicyPorts, List.filter_cons, List.filterMap_cons, hl, hn,
                he, hc, ih1, ih2, ih3]
          | some portInfo =>
            by_cases hz : portInfo.expiresIsZero
            · refine ⟨?_, ?_, ?_⟩ <;>
                simp [getNewLocalPolicyPorts, List.filter_cons, List.filterMap_cons, hl,
                  hn, he, hc, hz, ih1, ih2, ih3]
            · refine ⟨?_, ?_, ?_⟩ <;>
                simp [getNewLocalPolicyPorts, List.filter_cons, List.filterMap_cons, hl,
                  hn, he, hc, hz, ih1, ih2, ih3]
        · refine ⟨?_, ?_, ?_⟩ <;>
            simp [getNewLocalPolicyPorts, List.filter_cons, List.filterMap_cons, hl, hn,
              he, ih1, ih2, ih3]

/-- C9 counterexample: a scheduled pod that is expected in the logical-port
cache but whose cache lookup fails is returned as a retryable error object, not
skipped — and since no cached port of the input is pending deletion, the error
objects are not exactly the pending-deletion pods: the claim fails on this
input. -/
theorem claim_C9_counterexample :
    (getNewLocalPolicyPorts np1 [podMissing]).2.2 = [podMissing] ∧
    podMissing.cacheEntry = none ∧
    (getNewLocalPolicyPorts np1 [podMissing]).1 = [] := by
  refine ⟨?_, rfl, ?_⟩ <;> decide

end OvnNetpol

namespace OvnNetpol

/-! Characterisations of the two sync collection loops. -/

theorem mem_collectStaleDefaultDenyPGs (expected : List (String × String))
    (nss : List String) (x : String) :
    x ∈ collectStaleDefaultDenyPGs expected nss ↔
      ∃ ns ∈ nss, ¬ namespaceHasPolicies expected ns ∧
        (x = defaultDenyPortGroupName ns ingressDefaultDenySuffix ∨
         x = defaultDenyPortGroupName ns egressDefaultDenySuffix) := by
  induction nss with
  | nil => simp [collectStaleDefaultDenyPGs]
  | cons ns0 rest ih =>
    by_cases h : namespaceHasPolicies expected ns0
    · simp only [collectStaleDefaultDenyPGs]
      rw [if_neg (fun hc => hc h)]
      rw [ih]
      constructor
      · rintro ⟨ns, hmem, hcond⟩
        exact ⟨ns, List.mem_cons_of_mem _ hmem, hcond⟩
      · rintro ⟨ns, hmem, hcond, hx⟩
        rcases List.mem_cons.mp hmem with rfl | hmem2
        · exact absurd h hcond
        · exact ⟨ns, hmem2, hcond, hx⟩
    · simp only [collectStaleDefaultDenyPGs]
      rw [if_pos h]
      simp only [Finset.mem_insert]
      rw [ih]
      constructor
      · rintro (rfl | rfl | ⟨ns, hmem, hcond, hx⟩)
        · exact ⟨ns0, List.mem_cons_self _ _, h, Or.inl rfl⟩
        · exact ⟨ns0, List.mem_cons_self _ _, h, Or.inr rfl⟩
        · exact ⟨ns, List.mem_cons_of_mem _ hmem, hcond, hx⟩
      · rintro ⟨ns, hmem, hcond, hx⟩
        rcases List.mem_cons.mp hmem with rfl | hmem2
        · rcases hx with rfl | rfl
          · exact Or.inl rfl
          · exact Or.inr (Or.inl rfl)
        · exact Or.inr (Or.inr ⟨ns, hmem2, hcond, hx⟩)

theorem collectStaleNetpolPGs_ok_mem (expected : List (String × String)) :
    ∀ (ids : List String) (stale : Finset String),
      collectStaleNetpolPGs expected ids = .ok stale →
      ∀ x, x ∈ stale ↔ ∃ aclID ∈ ids, ∃ p, parseACLPolicyKey aclID = .ok p ∧
        ¬ expectedPoliciesContain expected p.1 p.2 ∧
        x = (getNetworkPolicyPGName p.1 p.2).1 := by
  intro ids
  induction ids with
  | nil =>
    intro stale h x
    simp only [collectStaleNetpolPGs, Except.ok.injEq] at h
    subst h
    simp
  | cons aclID rest ih =>
    intro stale h x
    cases hp : parseACLPolicyKey aclID with
    | error e =>
      simp only [collectStaleNetpolPGs, hp] at h
      exact Except.noConfusion h
    | ok p =>
      cases hr : collectStaleNetpolPGs expected rest with
      | error e =>
        simp only [collectStaleNetpolPGs, hp, hr] at h
        exact Except.noConfusion h
      | ok staleRest =>
        simp only [collectStaleNetpolPGs, hp, hr] at h
        have ihx := ih staleRest hr x
        by_cases hc : expectedPoliciesContain expected p.1 p.2
        · rw [if_neg (fun hcc => hcc hc)] at h
          injection h with h
          subst h
          rw [ihx]
          constructor
          · rintro ⟨id2, hmem, q, hq, hnc, hx⟩
            exact ⟨id2, List.mem_cons_of_mem _ hmem, q, hq, hnc, hx⟩
          · rintro ⟨id2, hmem, q, hq, hnc, hx⟩
            rcases List.mem_cons.mp hmem with rfl | hmem2
            · rw [hp] at hq
              injection hq with hq
              subst hq
              exact absurd hc hnc
            · exact ⟨id2, hmem2, q, hq, hnc, hx⟩
        · rw [if_pos hc] at h
          injection h with h
          subst h
          rw [Finset.mem_insert, ihx]
          constructor
          · rintro (rfl | ⟨id2, hmem, q, hq, hnc, hx⟩)
            · exact ⟨aclID, List.mem_cons_self _ _, p, hp, hc, rfl⟩
            · exact ⟨id2, List.mem_cons_of_mem _ hmem, q, hq, hnc, hx⟩
          · rintro ⟨id2, hmem, q, hq, hnc, hx⟩
            rcases List.mem_cons.mp hmem with rfl | hmem2
            · rw [hp] at hq
              injection hq with hq
              subst hq
              exact Or.inl hx
            · exact Or.inr ⟨id2, hmem2, q, hq, hnc, hx⟩

theorem collectStaleNetpolPGs_error_of_parse_error (expected : List (String × String)) :
    ∀ ids : List String, (∃ aclID ∈ ids, ∃ e, parseACLPolicyKey aclID = .error e) →
      ∃ e2, collectStaleNetpolPGs expected ids = .error e2 := by
  intro ids
  induction ids with
  | nil =>
    rintro ⟨_, h, _⟩
    exact absurd h (List.not_mem_nil _)
  | cons aclID rest ih =>
    rintro ⟨id2, hmem, e, he⟩
    rcases List.mem_cons.mp hmem with rfl | hmem2
    · refine ⟨"failed to sync stale network policies: acl IDs parsing failed: " ++ e, ?_⟩
      simp only [collectStaleNetpolPGs, he]
    · cases hp : parseACLPolicyKey aclID with
      | error e3 =>
        refine ⟨"failed to sync stale network policies: acl IDs parsing failed: " ++ e3, ?_⟩
        simp only [collectStaleNetpolPGs, hp]
      | ok p =>
        obtain ⟨e2, he2⟩ := ih ⟨id2, hmem2, e, he⟩
        refine ⟨e2, ?_⟩
        simp only [collectStaleNetpolPGs, hp, he2]

/-- C6: on startup sync, the accumulated stale set is exactly (a) the
per-policy port groups of policy-owned ACLs whose decoded namespace:name key is
not in the expected-policy set and (b) both default-deny port groups of every
namespace carrying a default-deny ACL but no expected policies; with both
transactions succeeding, `syncNetworkPolicies` issues one `DeletePortGroups`
over that set (none when it is empty) followed by the hairpin-allow ACL
installation; and if decoding any policy-owned ACL key fails, the sync returns
an error having performed no action at all. -/
theorem claim_C6_sync_deletes_exactly_stale (expected : List (String × String))
    (ids denyNss : List String) :
    (∀ stale, collectStaleNetpolPGs expected ids = .ok stale →
      (∀ x, x ∈ stale ∪ collectStaleDefaultDenyPGs expected denyNss ↔
        ((∃ aclID ∈ ids, ∃ p, parseACLPolicyKey aclID = .ok p ∧
            ¬ expectedPoliciesContain expected p.1 p.2 ∧
            x = (getNetworkPolicyPGName p.1 p.2).1) ∨
         (∃ ns ∈ denyNss, ¬ namespaceHasPolicies expected ns ∧
            (x = defaultDenyPortGroupName ns ingressDefaultDenySuffix ∨
             x = defaultDenyPortGroupName ns egressDefaultDenySuffix)))) ∧
      syncNetworkPolicies expected ids denyNss true true =
        ((if stale ∪ collectStaleDefaultDenyPGs expected denyNss ≠ ∅ then
            [SyncAction.deletePortGroups
              ((stale ∪ collectStaleDefaultDenyPGs expected denyNss).sort (· ≤ ·))]
          else []) ++ [SyncAction.installHairpinAllowACL], none)) ∧
    ((∃ aclID ∈ ids, ∃ e, parseACLPolicyKey aclID = .error e) →
      ∀ deleteOk hairpinOk, ∃ msg,
        syncNetworkPolicies expected ids denyNss deleteOk hairpinOk = ([], some msg)) := by
  constructor
  · intro stale hok
    constructor
    · intro x
      rw [Finset.mem_union, collectStaleNetpolPGs_ok_mem expected ids stale hok x,
        mem_collectStaleDefaultDenyPGs]
    · simp only [syncNetworkPolicies, hok]
      by_cases hne : stale ∪ collectStaleDefaultDenyPGs expected denyNss ≠ ∅
      · rw [if_pos hne, if_pos hne]
        rfl
      · rw [if_neg hne, if_neg hne]
        rfl
  · rintro hex deleteOk hairpinOk
    obtain ⟨e2, he2⟩ := collectStaleNetpolPGs_error_of_parse_error expected ids hex
    exact ⟨e2, by simp only [syncNetworkPolicies, he2]⟩

theorem claim_C6_witness :
    collectStaleNetpolPGs [("ns1", "p1")] ["ns1:p1", "ns2:gone"] =
      .ok {(getNetworkPolicyPGName "ns2" "gone").1} ∧
    (getNetworkPolicyPGName "ns2" "gone").1 ∈
      ({(getNetworkPolicyPGName "ns2" "gone").1} : Finset String) ∪
        collectStaleDefaultDenyPGs [("ns1", "p1")] ["ns2"] ∧
    syncNetworkPolicies [("ns1", "p1")] ["ns1:p1", "ns2:gone"] ["ns2"] true true =
      ((if ({(getNetworkPolicyPGName "ns2" "gone").1} : Finset String) ∪
            collectStaleDefaultDenyPGs [("ns1", "p1")] ["ns2"] ≠ ∅ then
          [SyncAction.deletePortGroups
            ((({(getNetworkPolicyPGName "ns2" "gone").1} : Finset String) ∪
              collectStaleDefaultDenyPGs [("ns1", "p1")] ["ns2"]).sort (· ≤ ·))]
        else []) ++ [SyncAction.installHairpinAllowACL], none) := by
  have hok : collectStaleNetpolPGs [("ns1", "p1")] ["ns1:p1", "ns2:gone"] =
      .ok {(getNetworkPolicyPGName "ns2" "gone").1} := by rfl
  have h := (claim_C6_sync_deletes_exactly_stale [("ns1", "p1")]
    ["ns1:p1", "ns2:gone"] ["ns2"]).1 _ hok
  refine ⟨hok, ?_, h.2⟩
  exact (h.1 _).mpr (Or.inl ⟨"ns2:gone", by simp, ("ns2", "gone"), rfl, by decide, rfl⟩)

end OvnNetpol
